import Mathlib

/-!
Verification of the tensor-query-processor core against its specification.

Shallow embedding conventions:
* `torch` 1-D float tensors are `List ℚ`; 1-D boolean tensors are `List Bool`;
  2-D string-encoded tensors (rows of character codes) are `List (List ℕ)`.
* Python `dict`s (insertion-ordered, unique keys) are association lists
  `List (String × _)`; `d[k] = v` on a fresh key appends, on an existing key
  replaces in place (`dictInsert` below).
* Fallible code returns `Except PyErr _`, where `PyErr` mirrors the Python
  exception class raised by the source (`TypeError`, `KeyError`, ...).
  The flexible call adapter in the executor catches exactly `typeError`,
  as the source's `except TypeError` does.
* `torch.argsort` is modeled as a stable argsort: the unique permutation of
  `[0, n)` sorted by `(key, original index)` lexicographically (ascending or
  descending on the key as requested, with ties in original order).
-/

/-- Python exception classes raised by the source code. -/
inductive PyErr where
  | typeError (msg : String)
  | keyError (msg : String)
  | runtimeError (msg : String)
  | valueError (msg : String)
  | indexError (msg : String)
  | attributeError (msg : String)
deriving DecidableEq, Repr

/-- A torch tensor as stored in a table column: 1-D numeric, 1-D boolean, or
2-D string-encoded (one row of character codes per table row). -/
inductive Tensor where
  | num (xs : List ℚ)
  | boolT (xs : List Bool)
  | str2d (xs : List (List ℕ))
deriving DecidableEq, Repr

/-- A single cell value, used to talk about table rows observationally. -/
inductive TVal where
  | q (x : ℚ)
  | b (x : Bool)
  | s (x : List ℕ)
deriving DecidableEq, Repr

namespace Tensor

/-- Row count of a tensor (`len` of the first dimension). -/
def len : Tensor → ℕ
  | .num xs => xs.length
  | .boolT xs => xs.length
  | .str2d xs => xs.length

/-- Cell value at row `i` (rows are always accessed in bounds by the code). -/
def atv : Tensor → ℕ → TVal
  | .num xs, i => .q (xs.getD i 0)
  | .boolT xs, i => .b (xs.getD i false)
  | .str2d xs, i => .s (xs.getD i [])

/-- `t[idx]` for a 1-D integer index tensor `idx`: row gather.  This is the
semantics of indexing a torch tensor with a `long` index tensor, used by
`sort` and by join materialization. -/
def gather : Tensor → List ℕ → Tensor
  | .num xs, idx => .num (idx.map fun i => xs.getD i 0)
  | .boolT xs, idx => .boolT (idx.map fun i => xs.getD i false)
  | .str2d xs, idx => .str2d (idx.map fun i => xs.getD i [])

end Tensor

/-- Lookup in a Python dict modelled as an association list (`d.get(k)` /
`d[k]` before the `KeyError` check). -/
def dget {α : Type} (m : List (String × α)) (k : String) : Option α :=
  match m with
  | [] => none
  | (k', v) :: rest => if k' = k then some v else dget rest k

/-- `d[k] = v` on a Python dict: replaces in place if the key exists
(keeping its position), otherwise appends. -/
def dictInsert {α : Type} (m : List (String × α)) (k : String) (v : α) :
    List (String × α) :=
  match m with
  | [] => [(k, v)]
  | (k', v') :: rest =>
      if k' = k then (k, v) :: rest else (k', v') :: dictInsert rest k v

/-- `del d[k]` / `d.pop(k)` on a Python dict: removes the entry. -/
def dictErase {α : Type} (m : List (String × α)) (k : String) :
    List (String × α) :=
  match m with
  | [] => []
  | (k', v') :: rest =>
      if k' = k then rest else (k', v') :: dictErase rest k

/-- `TensorTable` (src/tensor/tensor_table.py): ordered mapping column name →
tensor plus a schema mapping column name → type tag (`"numeric"` / `"string"`). -/
structure TensorTable where
  columns : List (String × Tensor)
  schema : List (String × String)
deriving DecidableEq, Repr

namespace TensorTable

/-- `num_rows`: length of the first column if any column exists, else 0. -/
def num_rows (t : TensorTable) : ℕ :=
  match t.columns with
  | [] => 0
  | (_, c) :: _ => c.len

/-- `get_column`: `self.columns[name]`, `KeyError` when absent. -/
def get_column (t : TensorTable) (name : String) : Option Tensor :=
  dget t.columns name

/-- The schema tag a well-formed table carries for a tensor of this shape
(`from_dict` tags 2-D string tensors `"string"`, numeric ones `"numeric"`). -/
def tagOf : Tensor → String
  | .str2d _ => "string"
  | _ => "numeric"

/-- Well-formedness: every column has `num_rows` rows, and the schema holds
the shape-appropriate tag for every column. -/
def wf (t : TensorTable) : Prop :=
  (∀ p ∈ t.columns, Tensor.len p.2 = t.num_rows) ∧
  (∀ p ∈ t.columns, dget t.schema p.1 = some (tagOf p.2))

/-- The observable rows of a table: for each row index, the list of cell
values of every column in order. -/
def rowsOf (t : TensorTable) : List (List TVal) :=
  (List.range t.num_rows).map fun i => t.columns.map fun p => p.2.atv i

end TensorTable

/-! ## Expression model (src/ir/ir.py) -/

/-- `ExprType` enumeration. -/
inductive ExprType where
  | column | literal
  | add | sub | mul | div
  | lt | gt | eq | leq | geq
  | and | or
deriving DecidableEq, Repr

/-- The `value: Any` payload of an `Expression`: a column name, a numeric
literal, or `None`. -/
inductive ExprVal where
  | vstr (s : String)
  | vnum (q : ℚ)
  | vnone
deriving DecidableEq, Repr

/-- `Expression` dataclass: type tag, payload, children. -/
inductive Expression where
  | mk (expr_type : ExprType) (value : ExprVal) (children : List Expression)
deriving Repr

namespace Expression

def expr_type : Expression → ExprType
  | .mk t _ _ => t

def value : Expression → ExprVal
  | .mk _ v _ => v

def children : Expression → List Expression
  | .mk _ _ cs => cs

end Expression

/-! ## Expression compiler (src/expr/expr_compiler.py) -/

namespace ExpressionCompiler

/-- Coerce a tensor to boolean, as `torch.logical_and`/`logical_or` do with
numeric operands (nonzero ↦ true).  2-D string tensors are outside the
modeled 1-D domain (the result would be a 2-D mask the rest of the pipeline
cannot consume). -/
def toBools : Tensor → Except PyErr (List Bool)
  | .boolT xs => .ok xs
  | .num xs => .ok (xs.map fun x => decide (x ≠ 0))
  | .str2d _ => .error (.runtimeError "2-D operand outside modeled domain")

/-- One entry of `EXPR_OPS` applied to two compiled operands.  Arithmetic and
comparisons act elementwise on equal-length 1-D numeric tensors (shape or
dtype mismatches raise at the torch level); `and`/`or` accept boolean or
numeric operands. -/
def applyOp (op : ExprType) (a b : Tensor) : Except PyErr Tensor :=
  match op, a, b with
  | .add, .num xs, .num ys =>
      if xs.length = ys.length then .ok (.num (List.zipWith (· + ·) xs ys))
      else .error (.runtimeError "shape mismatch")
  | .sub, .num xs, .num ys =>
      if xs.length = ys.length then .ok (.num (List.zipWith (· - ·) xs ys))
      else .error (.runtimeError "shape mismatch")
  | .mul, .num xs, .num ys =>
      if xs.length = ys.length then .ok (.num (List.zipWith (· * ·) xs ys))
      else .error (.runtimeError "shape mismatch")
  | .div, .num xs, .num ys =>
      if xs.length = ys.length then .ok (.num (List.zipWith (· / ·) xs ys))
      else .error (.runtimeError "shape mismatch")
  | .lt, .num xs, .num ys =>
      if xs.length = ys.length then
        .ok (.boolT (List.zipWith (fun x y => decide (x < y)) xs ys))
      else .error (.runtimeError "shape mismatch")
  | .gt, .num xs, .num ys =>
      if xs.length = ys.length then
        .ok (.boolT (List.zipWith (fun x y => decide (x > y)) xs ys))
      else .error (.runtimeError "shape mismatch")
  | .eq, .num xs, .num ys =>
      if xs.length = ys.length then
        .ok (.boolT (List.zipWith (fun x y => decide (x = y)) xs ys))
      else .error (.runtimeError "shape mismatch")
  | .leq, .num xs, .num ys =>
      if xs.length = ys.length then
        .ok (.boolT (List.zipWith (fun x y => decide (x ≤ y)) xs ys))
      else .error (.runtimeError "shape mismatch")
  | .geq, .num xs, .num ys =>
      if xs.length = ys.length then
        .ok (.boolT (List.zipWith (fun x y => decide (x ≥ y)) xs ys))
      else .error (.runtimeError "shape mismatch")
  | .and, x, y => do
      let bx ← toBools x
      let by' ← toBools y
      if bx.length = by'.length then .ok (.boolT (List.zipWith (· && ·) bx by'))
      else .error (.runtimeError "shape mismatch")
  | .or, x, y => do
      let bx ← toBools x
      let by' ← toBools y
      if bx.length = by'.length then .ok (.boolT (List.zipWith (· || ·) bx by'))
      else .error (.runtimeError "shape mismatch")
  | _, _, _ => .error (.runtimeError "unsupported operand dtypes")

mutual

/-- `ExpressionCompiler.compile`: post-order recursive evaluation of the
expression tree against a table.  `Column` looks the column up (`KeyError`
when absent), `Literal` broadcasts the value to `len(table)` rows
(`IndexError` when the table has no column to take a device from), and a
binary node compiles both children and applies the `EXPR_OPS` entry;
other-than-two operands raise `ValueError`. -/
def compile (expr : Expression) (table : TensorTable) : Except PyErr Tensor :=
  match expr with
  | .mk .column v _ =>
      match v with
      | .vstr s =>
          match table.get_column s with
          | some t => .ok t
          | none => .error (.keyError s)
      | _ => .error (.keyError "non-string column name")
  | .mk .literal v _ =>
      match table.columns with
      | [] => .error (.indexError "list index out of range")
      | _ :: _ =>
          match v with
          | .vnum q => .ok (.num (List.replicate table.num_rows q))
          | _ => .error (.typeError "unsupported literal payload")
  | .mk op _ cs =>
      match compileOperands cs table with
      | .error e => .error e
      | .ok operands =>
          match operands with
          | [a, b] => applyOp op a b
          | _ => .error (.valueError "Unsupported number of operands")

/-- The child list comprehension
`[compile(child, table) for child in expr.children]`: evaluate the children
in order, propagating the first exception. -/
def compileOperands : List Expression → TensorTable → Except PyErr (List Tensor)
  | [], _ => .ok []
  | c :: cs, table =>
      match compile c table with
      | .error e => .error e
      | .ok v =>
          match compileOperands cs table with
          | .error e => .error e
          | .ok vs => .ok (v :: vs)

end

end ExpressionCompiler

/-! ## Relational operators (src/relational_operator/relational_operator.py) -/

namespace RelationalOperators

/-- `torch.masked_select(col, mask)`: keep the entries at true mask positions,
in order.  The mask must be boolean and of matching length (torch raises on a
dtype or shape mismatch); only 1-D tensors are selectable this way. -/
def maskedSelect (t : Tensor) (mask : Tensor) : Except PyErr Tensor :=
  match mask with
  | .boolT m =>
      match t with
      | .num xs =>
          if xs.length = m.length then
            .ok (.num ((xs.zip m).filterMap fun p => if p.2 then some p.1 else none))
          else .error (.runtimeError "shape mismatch")
      | .boolT xs =>
          if xs.length = m.length then
            .ok (.boolT ((xs.zip m).filterMap fun p => if p.2 then some p.1 else none))
          else .error (.runtimeError "shape mismatch")
      | .str2d _ => .error (.runtimeError "masked_select on 2-D tensor")
  | _ => .error (.runtimeError "masked_select expects a bool mask")

/-- `col[mask]` for a 2-D (or 1-D) tensor and a 1-D boolean mask: keep the
rows at true mask positions, in order.  A non-boolean mask is an indexing
error here (the compiled conditions never produce 1-D integer index
tensors, so the long-tensor gather branch of torch indexing is out of the
modeled domain). -/
def boolIndex (t : Tensor) (mask : Tensor) : Except PyErr Tensor :=
  match mask with
  | .boolT m =>
      match t with
      | .num xs =>
          if xs.length = m.length then
            .ok (.num ((xs.zip m).filterMap fun p => if p.2 then some p.1 else none))
          else .error (.indexError "mask shape mismatch")
      | .boolT xs =>
          if xs.length = m.length then
            .ok (.boolT ((xs.zip m).filterMap fun p => if p.2 then some p.1 else none))
          else .error (.indexError "mask shape mismatch")
      | .str2d xs =>
          if xs.length = m.length then
            .ok (.str2d ((xs.zip m).filterMap fun p => if p.2 then some p.1 else none))
          else .error (.indexError "mask shape mismatch")
  | _ => .error (.indexError "tensors used as indices must be long or bool")

/-- The per-column loop of `filter`: look the column's schema tag up
(`KeyError` when absent), then compact by the mask — row indexing for
`'string'` columns, `masked_select` otherwise. -/
def filterCols (schema : List (String × String)) (mask : Tensor) :
    List (String × Tensor) → Except PyErr (List (String × Tensor))
  | [] => .ok []
  | (n, t) :: rest =>
      match dget schema n with
      | none => .error (.keyError n)
      | some tag =>
          match (if tag = "string" then boolIndex t mask else maskedSelect t mask) with
          | .error e => .error e
          | .ok t' =>
              match filterCols schema mask rest with
              | .error e => .error e
              | .ok rest' => .ok ((n, t') :: rest')

/-- `RelationalOperators.filter`: compile the condition to a mask over the
table, then compact every column by it; the result keeps the input schema. -/
def filter (table : TensorTable) (condition : Expression) :
    Except PyErr TensorTable :=
  match ExpressionCompiler.compile condition table with
  | .error e => .error e
  | .ok mask =>
      match filterCols table.schema mask table.columns with
      | .error e => .error e
      | .ok cols => .ok ⟨cols, table.schema⟩

/-- `RelationalOperators.project`: retain exactly the named columns in the
given order (`KeyError` on an unknown column or missing schema entry). -/
def project (table : TensorTable) (columns : List String) :
    Except PyErr TensorTable := do
  let cols ← columns.mapM fun c =>
    match dget table.columns c with
    | some t => Except.ok (c, t)
    | none => Except.error (PyErr.keyError c)
  let sch ← columns.mapM fun c =>
    match dget table.schema c with
    | some s => Except.ok (c, s)
    | none => Except.error (PyErr.keyError c)
  .ok ⟨cols, sch⟩

/-- Key of sorted position `i` (out-of-range defaults never arise: argsort
only produces indices below the key list's length). -/
def keyAt (ks : List ℚ) (i : ℕ) : ℚ := ks.getD i 0

/-- The total order on row indices realized by a stable argsort of `ks`:
compare keys (ascending or descending), break ties by original index. -/
def argsortLe (ks : List ℚ) (asc : Bool) (i j : ℕ) : Prop :=
  if asc then keyAt ks i < keyAt ks j ∨ (keyAt ks i = keyAt ks j ∧ i ≤ j)
  else keyAt ks j < keyAt ks i ∨ (keyAt ks i = keyAt ks j ∧ i ≤ j)

instance (ks : List ℚ) (asc : Bool) : DecidableRel (argsortLe ks asc) := by
  intro i j
  unfold argsortLe
  exact if h : asc then by simp [h]; infer_instance else by simp [h]; infer_instance

/-- `torch.argsort` on a 1-D tensor, modeled as the stable argsort: the
permutation of `[0, len ks)` sorted by `(key, original index)` lex. -/
def argsort (ks : List ℚ) (asc : Bool) : List ℕ :=
  List.insertionSort (argsortLe ks asc) (List.range ks.length)

/-- `RelationalOperators.sort`: argsort the key column and apply the
resulting permutation to every column.  `torch.argsort` of a 2-D
string-encoded tensor sorts along the last dimension and is outside the
modeled (row-permutation) domain. -/
def sort (table : TensorTable) (key_column : String) (ascending : Bool) :
    Except PyErr TensorTable :=
  match table.get_column key_column with
  | none => .error (.keyError key_column)
  | some kt =>
      match kt with
      | .num ks =>
          let sorted_indices := argsort ks ascending
          .ok ⟨table.columns.map fun p => (p.1, p.2.gather sorted_indices),
               table.schema⟩
      | _ => .error (.runtimeError "argsort key outside modeled 1-D numeric domain")

/-- The body of `sort` after the `torch.argsort` call, with the returned
index tensor as a parameter: the one index list is applied to every column
(`sorted_columns[col_name] = tensor[sorted_indices]`) and the schema is
kept. -/
def sortWith (sorted_indices : List ℕ) (table : TensorTable) : TensorTable :=
  ⟨table.columns.map fun p => (p.1, p.2.gather sorted_indices),
   table.schema⟩

/-- The documented contract of `torch.argsort(key_tensor, descending)` as
called by `sort` — without `stable=True`: the result is some permutation of
the row indices whose gathered key values are in the requested order.  The
relative order of indices with equal keys is left unspecified by this
contract; `argsort` above is one admissible implementation (the stable
one), used to give the embedding an executable instance. -/
def isArgsortOf (ks : List ℚ) (ascending : Bool) (idx : List ℕ) : Prop :=
  idx.Perm (List.range ks.length) ∧
  (idx.map fun i => ks.getD i 0).Sorted
    (fun a b => if ascending then a ≤ b else a ≥ b)

/-- `(right_keys == k).nonzero(as_tuple=True)[0]`: the indices of the right
rows whose key equals `k`, in ascending index order. -/
def matchIdx (rk : List ℚ) (k : ℚ) : List ℕ :=
  (List.range rk.length).filter fun j => decide (rk.getD j 0 = k)

/-- The (left original index, right original index) pairs `hash_join` emits:
left rows scanned in original order, matches in ascending right index order. -/
def hashPairs (lk rk : List ℚ) : List (ℕ × ℕ) :=
  (List.range lk.length).flatMap fun i =>
    (matchIdx rk (lk.getD i 0)).map fun j => (i, j)

/-- The pairs `sort_merge_join` emits: left rows scanned in sorted-key order
(each mapped back to its original index), matches found in the sorted right
key array and mapped back through the right argsort. -/
def smjPairs (lk rk : List ℚ) : List (ℕ × ℕ) :=
  let leftSortedIdx := argsort lk true
  let rightSortedIdx := argsort rk true
  let leftSorted := leftSortedIdx.map fun i => lk.getD i 0
  let rightSorted := rightSortedIdx.map fun i => rk.getD i 0
  (List.range leftSorted.length).flatMap fun i =>
    (matchIdx rightSorted (leftSorted.getD i 0)).map fun j =>
      (leftSortedIdx.getD i 0, rightSortedIdx.getD j 0)

/-- One side of the join materialization loop: for every column `(c, t)` of
`side`, emit output column `<pre><c>` = `t` gathered at `idx` and schema
entry `<pre><c>` = `side.schema[c]` (`KeyError` when the schema misses a
column).  Both joins run this for the left side with the left indices and
the right side with the right indices. -/
def gatherCols (pre : String) (schema : List (String × String)) (idx : List ℕ) :
    List (String × Tensor) →
      Except PyErr (List (String × Tensor) × List (String × String))
  | [] => .ok ([], [])
  | p :: rest =>
      match dget schema p.1 with
      | some tag =>
          (gatherCols pre schema idx rest).map fun l =>
            ((pre ++ p.1, p.2.gather idx) :: l.1, (pre ++ p.1, tag) :: l.2)
      | none => .error (.keyError p.1)

/-- See `gatherCols`; packaged per side. -/
def gatherSide (pre : String) (side : TensorTable) (idx : List ℕ) :
    Except PyErr (List (String × Tensor) × List (String × String)) :=
  gatherCols pre side.schema idx side.columns

/-- The shared materialization epilogue of both joins: an empty pair list
yields `TensorTable({}, {})`, otherwise the output columns are the left
columns gathered at the left indices under prefix `left_` followed by the
right columns gathered at the right indices under prefix `right_`.  (The
two prefixes never collide, so the Python dict construction is an append.) -/
def materializeJoin (left right : TensorTable) (pairs : List (ℕ × ℕ)) :
    Except PyErr TensorTable :=
  if pairs.isEmpty then .ok ⟨[], []⟩
  else
    match gatherSide "left_" left (pairs.map Prod.fst) with
    | .error e => .error e
    | .ok l =>
        match gatherSide "right_" right (pairs.map Prod.snd) with
        | .error e => .error e
        | .ok r => .ok ⟨l.1 ++ r.1, l.2 ++ r.2⟩

/-- `RelationalOperators.sort_merge_join`: sort both key columns, scan the
sorted left keys and find equal sorted right keys by equality scan, then
materialize with `left_`/`right_` prefixes.  The bucketize/bincount
computations of the source are discarded (`_ =`) and not modeled; joins on
string-encoded key columns are outside the modeled domain (2-D equality
broadcasts there).  Missing key columns raise `KeyError`. -/
def sort_merge_join (left right : TensorTable) (left_key right_key : String) :
    Except PyErr TensorTable :=
  match left.get_column left_key with
  | none => .error (.keyError left_key)
  | some lt =>
      match right.get_column right_key with
      | none => .error (.keyError right_key)
      | some rt =>
          match lt, rt with
          | .num lk, .num rk => materializeJoin left right (smjPairs lk rk)
          | _, _ => .error (.runtimeError "join keys outside modeled 1-D numeric domain")

/-- `RelationalOperators.hash_join`: scan the left keys in original order and
find equal right keys by equality scan (the computed hash values are
discarded by the source), then materialize with `left_`/`right_` prefixes. -/
def hash_join (left right : TensorTable) (left_key right_key : String) :
    Except PyErr TensorTable :=
  match left.get_column left_key with
  | none => .error (.keyError left_key)
  | some lt =>
      match right.get_column right_key with
      | none => .error (.keyError right_key)
      | some rt =>
          match lt, rt with
          | .num lk, .num rk => materializeJoin left right (hashPairs lk rk)
          | _, _ => .error (.runtimeError "join keys outside modeled 1-D numeric domain")

end RelationalOperators

namespace RelationalOperators

/-- `torch.unique_consecutive(xs)`: collapse runs of equal adjacent values. -/
def uniqueConsecutive : List ℚ → List ℚ
  | [] => []
  | [a] => [a]
  | a :: b :: rest =>
      if a = b then uniqueConsecutive (b :: rest)
      else a :: uniqueConsecutive (b :: rest)

/-- The `return_inverse` output of `torch.unique_consecutive`: for each
position, the index of its run among the collapsed values. -/
def inverseIdx : List ℚ → List ℕ
  | [] => []
  | [_] => [0]
  | a :: b :: rest =>
      if a = b then 0 :: inverseIdx (b :: rest)
      else 0 :: (inverseIdx (b :: rest)).map (· + 1)

/-- `torch.bincount`: occurrence counts for `0 .. max`, empty for an empty
input. -/
def bincount (inv : List ℕ) : List ℕ :=
  (List.range (match inv with
    | [] => 0
    | _ => inv.foldr Nat.max 0 + 1)).map fun g => inv.count g

/-- `zeros(n).scatter_add_(0, inv, vals)`: per-group sums over a zero base. -/
def segSum (inv : List ℕ) (vals : List ℚ) (n : ℕ) : List ℚ :=
  (List.range n).map fun g =>
    ((((inv.zip vals).filter fun p => p.1 = g).map Prod.snd)).sum

/-- `full(n, seed).scatter_reduce_(0, inv, vals, amin/amax)`: per-group fold.
The source seeds with `float('inf')` / `float('-inf')`; since `inverseIdx`
is surjective onto `0 .. n-1` every segment is non-empty, so the seed never
survives into the result and is modeled by an arbitrary default. -/
def segReduce (f : ℚ → ℚ → ℚ) (inv : List ℕ) (vals : List ℚ) (n : ℕ) :
    List ℚ :=
  (List.range n).map fun g =>
    match ((inv.zip vals).filter fun p => p.1 = g).map Prod.snd with
    | [] => 0
    | x :: xs => xs.foldl f x

/-- The composite-key loop of `group_by`: fold `key = key*10000 + nextCol`
over the remaining group columns (`KeyError` on a missing column; the
arithmetic is only modeled for 1-D numeric columns). -/
def combineGroup (table : TensorTable) : List String → Tensor → Except PyErr Tensor
  | [], acc => .ok acc
  | c :: cs, acc =>
      match table.get_column c with
      | none => .error (.keyError c)
      | some t =>
          match acc, t with
          | Tensor.num xs, Tensor.num ys =>
              if xs.length = ys.length then
                combineGroup table cs
                  (Tensor.num (List.zipWith (fun x y => x * 10000 + y) xs ys))
              else .error (.runtimeError "shape mismatch")
          | _, _ =>
              .error (.runtimeError
                "composite group key outside modeled numeric domain")

/-- The aggregate-function dispatch of `group_by` over the sorted aggregate
column, the inverse group index and the group count: `sum` is a scatter-add
over zeros, `count` a bincount, `avg` their elementwise quotient, `min` and
`max` segmented folds; anything else raises the unsupported-aggregate
`ValueError`. -/
def computeAgg (agg_func : String) (sorted_agg : Tensor) (inv : List ℕ)
    (n : ℕ) : Except PyErr (List ℚ) :=
  if agg_func = "sum" then
    match sorted_agg with
    | Tensor.num vs => .ok (segSum inv vs n)
    | _ => .error (.runtimeError "segmented reduction on non-numeric values")
  else if agg_func = "count" then
    .ok ((bincount inv).map fun c : ℕ => (c : ℚ))
  else if agg_func = "avg" then
    match sorted_agg with
    | Tensor.num vs =>
        .ok (List.zipWith (· / ·) (segSum inv vs n)
          ((bincount inv).map fun c : ℕ => (c : ℚ)))
    | _ => .error (.runtimeError "segmented reduction on non-numeric values")
  else if agg_func = "min" then
    match sorted_agg with
    | Tensor.num vs => .ok (segReduce min inv vs n)
    | _ => .error (.runtimeError "segmented reduction on non-numeric values")
  else if agg_func = "max" then
    match sorted_agg with
    | Tensor.num vs => .ok (segReduce max inv vs n)
    | _ => .error (.runtimeError "segmented reduction on non-numeric values")
  else .error (.valueError ("Unsupported aggregation function: " ++ agg_func))

/-- `RelationalOperators.group_by`: combine the group columns into one
composite key (pairwise `key*10000 + next`), sort by it, collapse
consecutive equal keys into groups, run the requested segmented reduction
over the aggregate column, and return a two-entry result dict (group column
values, `<agg_func>_<agg_col>`).  An unknown `agg_func` raises `ValueError`;
an empty `group_cols` list raises `IndexError` (`group_tensors[0]`); missing
columns or schema entries raise `KeyError`; non-numeric group keys are
outside the modeled `argsort`/arithmetic domain.  (The two-entry dict
literal collapses to one entry when `group_cols[0]` equals
`<agg_func>_<agg_col>`; `dictInsert` reproduces that.) -/
def group_by (table : TensorTable) (group_cols : List String)
    (agg_col : String) (agg_func : String) : Except PyErr TensorTable :=
  match group_cols with
  | [] => .error (.indexError "list index out of range")
  | g0 :: gs =>
      match table.get_column g0 with
      | none => .error (.keyError g0)
      | some t0 =>
          match (match gs with
                 | [] => Except.ok t0
                 | _ :: _ => combineGroup table gs t0) with
          | .error e => .error e
          | .ok group_tensor =>
              match group_tensor with
              | Tensor.num gk =>
                  match table.get_column agg_col with
                  | none => .error (.keyError agg_col)
                  | some aggT =>
                      match computeAgg agg_func
                          (aggT.gather (argsort gk true))
                          (inverseIdx ((argsort gk true).map fun i => gk.getD i 0))
                          (uniqueConsecutive
                            ((argsort gk true).map fun i => gk.getD i 0)).length with
                      | .error e => .error e
                      | .ok agg_result =>
                          match dget table.schema g0 with
                          | none => .error (.keyError g0)
                          | some tag0 =>
                              .ok ⟨dictInsert
                                     (dictInsert [] g0 (Tensor.num (uniqueConsecutive
                                       ((argsort gk true).map fun i => gk.getD i 0))))
                                     (agg_func ++ "_" ++ agg_col)
                                     (Tensor.num agg_result),
                                   dictInsert (dictInsert [] g0 tag0)
                                     (agg_func ++ "_" ++ agg_col) "numeric"⟩
              | _ =>
                  .error (.runtimeError
                    "argsort key outside modeled 1-D numeric domain")

end RelationalOperators

/-! ## IR model (src/ir/ir.py) and optimizer (src/ir/optimizer.py) -/

/-- `OpType` enumeration. -/
inductive OpType where
  | scan | filter | project | sort | hash_join | sort_join | group_by | limit
deriving DecidableEq, Repr

/-- One `{column, function}` entry of a `HashAggregate`'s `agg_exprs` list;
the executor reads both fields with `.get` (hence `Option`). -/
structure AggExpr where
  column : Option String
  function : Option String
deriving Repr

/-- A parameter value as stored in the dynamic `params` dicts: strings,
booleans, numbers, compiled condition expressions, lists of column names,
aggregate-expression lists, schema maps, and `None`. -/
inductive PVal where
  | vs (s : String)
  | vb (b : Bool)
  | vq (q : ℚ)
  | vcond (e : Expression)
  | vstrs (ss : List String)
  | vaggs (l : List AggExpr)
  | vschema (m : List (String × String))
  | vnone
deriving Repr

/-- A `params` dict. -/
abbrev Params := List (String × PVal)

namespace PVal

/-- Python truthiness of a parameter value. -/
def truthy : PVal → Bool
  | .vs s => decide (s ≠ "")
  | .vb b => b
  | .vq q => decide (q ≠ 0)
  | .vcond _ => true
  | .vstrs ss => !ss.isEmpty
  | .vaggs l => !l.isEmpty
  | .vschema m => !m.isEmpty
  | .vnone => false

/-- `x is None`. -/
def isNoneV : PVal → Bool
  | .vnone => true
  | _ => false

end PVal

/-- `IRNode` dataclass: operator tag, children, parameter map. -/
inductive IRNode where
  | mk (op_type : OpType) (children : List IRNode) (params : Params)
deriving Repr

namespace IRNode

def op_type : IRNode → OpType
  | .mk t _ _ => t

def children : IRNode → List IRNode
  | .mk _ cs _ => cs

def params : IRNode → Params
  | .mk _ _ ps => ps

end IRNode

namespace IROptimizer

/-- `IROptimizer._remove_redundant_projections`: rebuild the node with all
children processed recursively.  The `PROJECT` branch of the source inspects
the single child and then deliberately passes through without rewriting, so
the node itself is returned unchanged. -/
def remove_redundant_projections : IRNode → IRNode
  | .mk op cs ps => .mk op (cs.attach.map fun c => remove_redundant_projections c.1) ps
decreasing_by
  have := List.sizeOf_lt_of_mem c.2
  simp only [IRNode.mk.sizeOf_spec]
  omega

/-- `IROptimizer.canonicalize`. -/
def canonicalize (ir : IRNode) : IRNode := remove_redundant_projections ir

/-- `IROptimizer.optimize`: the rule slot is currently the identity. -/
def optimize (ir : IRNode) : IRNode := ir

end IROptimizer

/-! ## Executor (src/executor/tqp_executor.py) -/

/-- The operator implementations that appear as `op_func` values in plans:
the seven static methods of `RelationalOperators` the planner binds. -/
inductive OpFunc where
  | scanF | filterF | projectF | sortF | smjF | hashJoinF | groupByF
deriving DecidableEq, Repr

/-- A plan element: a legacy `(op_name, op_func, params)` triple or an
explicit `{op, op_func, inputs, output, params}` node (optional fields read
with `.get`). -/
inductive PlanElem where
  | legacy (op_name : String) (op_func : OpFunc) (params : Params)
  | node (op : Option String) (op_func : Option OpFunc) (inputs : List String)
      (output : Option String) (params : Params)
deriving Repr

namespace TQPExecutor

/-- The final `TypeError` the flexible adapter raises when all three call
shapes were rejected. -/
def operatorCallFailedMsg : String := "Operator call failed"

/-- The `RuntimeError` `_resolve_legacy_input` raises when no input source
is available. -/
def noInputMsg : String :=
  "No input available for legacy op (no previous result and no 'table'/'input' param)"

/-- `TQPExecutor._resolve_legacy_input`: previous result first, then the
`table` param, then the `input` param (Python `or` skips a falsy `table`),
else `RuntimeError`.  A present but unknown table name raises `KeyError`. -/
def resolve_legacy_input (last_name : String) (params : Params)
    (env : List (String × TensorTable)) : Except PyErr TensorTable :=
  if last_name ≠ "" then
    match dget env last_name with
    | some t => .ok t
    | none => .error (.keyError last_name)
  else
    let tn : Option PVal :=
      match dget params "table" with
      | some v => if v.truthy then some v else dget params "input"
      | none => dget params "input"
    match tn with
    | some v =>
        if v.truthy then
          match v with
          | .vs s =>
              match dget env s with
              | some t => .ok t
              | none =>
                  .error (.keyError
                    ("Input table '" ++ s ++ "' not provided in input tables"))
          | .vq _ | .vb _ =>
              -- hashable non-string name: `table_name not in env` holds
              .error (.keyError "Input table not provided in input tables")
          | _ =>
              -- list/dict/dataclass names are unhashable in `in env`
              .error (.typeError "unhashable table name")
        else .error (.runtimeError noInputMsg)
    | none => .error (.runtimeError noInputMsg)

/-- Adapter attempt 1, `op_func(inputs, params)`: the inputs list and the
params dict are bound to the first two positional parameters of the
implementation; what the body then does to them decides the outcome.
`scan` hashes the list as a dict key (`TypeError`); `filter`/`sort` access
attributes the list/dict lacks (`AttributeError`, uncaught); `project`
iterates an empty params dict into an empty projection but otherwise hits
the missing `columns` attribute; four-parameter implementations reject the
two-argument call outright (`TypeError`). -/
def callAttempt1 (f : OpFunc) (_inputs : List TensorTable) (params : Params) :
    Except PyErr TensorTable :=
  match f with
  | .scanF => .error (.typeError "unhashable type: list")
  | .filterF => .error (.attributeError "dict object has no attribute expr_type")
  | .projectF =>
      if params.isEmpty then .ok ⟨[], []⟩
      else .error (.attributeError "list object has no attribute columns")
  | .sortF => .error (.attributeError "list object has no attribute get_column")
  | .smjF | .hashJoinF | .groupByF =>
      .error (.typeError "missing required positional arguments")
end TQPExecutor

namespace TQPExecutor

/-- Adapter attempt 2, `op_func(*inputs, **params)`: CPython keyword binding
against each implementation's signature.  A params key that is not a
parameter name of the implementation is an unexpected keyword
(`TypeError`); plans produced by this repository's planner always carry
such a key for every implementation, so only hand-written params in the
implementation's own parameter names reach a body here.  Corners in which
binding would succeed with arguments of the wrong Python type (for example
`scan`'s `tables` bound to a non-dict) are modeled by the exception class
the body's first failing operation raises. -/
def callAttempt2 (f : OpFunc) (inputs : List TensorTable) (params : Params) :
    Except PyErr TensorTable :=
  match f with
  | .scanF =>
      if params.any (fun p => p.1 ≠ "table_name" ∧ p.1 ≠ "tables") ∨ params.isEmpty then
        -- unexpected keyword, or pure-positional binding whose body
        -- subscripts a non-dict / lacks the `tables` argument: TypeError
        .error (.typeError "unexpected keyword argument or bad arity")
      else
        -- params written in scan's own parameter names: the body would look
        -- a TensorTable key up in a str→str dict; outside this repository's
        -- plans, modeled as the KeyError that lookup raises
        .error (.keyError "scan: table lookup with non-table-name key")
  | .filterF =>
      if inputs.length = 1 ∧ params.all (fun p => p.1 = "condition") then
        match inputs, dget params "condition" with
        | [t], some (.vcond e) => RelationalOperators.filter t e
        | [_], some _ => .error (.attributeError "no attribute expr_type")
        | _, _ => .error (.typeError "missing argument: condition")
      else if inputs.length = 2 ∧ params.isEmpty then
        .error (.attributeError "no attribute expr_type")
      else .error (.typeError "unexpected keyword argument or bad arity")
  | .projectF =>
      if inputs.length = 1 ∧ params.all (fun p => p.1 = "columns") then
        match inputs, dget params "columns" with
        | [t], some (.vstrs ss) => RelationalOperators.project t ss
        | [t], some (.vs s) => RelationalOperators.project t (s.data.map Char.toString)
        | [t], some (.vschema m) => RelationalOperators.project t (m.map Prod.fst)
        | [_], some _ => .error (.typeError "argument not iterable")
        | _, _ => .error (.typeError "missing argument: columns")
      else if inputs.length = 2 ∧ params.isEmpty then
        .error (.typeError "TensorTable object is not iterable")
      else .error (.typeError "unexpected keyword argument or bad arity")
  | .sortF =>
      if inputs.length = 1 ∧
          params.all (fun p => p.1 = "key_column" ∨ p.1 = "ascending") then
        match inputs, dget params "key_column" with
        | [t], some (.vs k) =>
            RelationalOperators.sort t k
              (match dget params "ascending" with
               | some a => a.truthy
               | none => true)
        | [_], some (.vq _) | [_], some (.vb _) | [_], some .vnone =>
            .error (.keyError "key is not a column")
        | [_], some _ => .error (.typeError "unhashable key")
        | _, _ => .error (.typeError "missing argument: key_column")
      else .error (.typeError "unexpected keyword argument or bad arity")
  | .smjF | .hashJoinF =>
      if inputs.length = 2 ∧
          params.all (fun p => p.1 = "left_key" ∨ p.1 = "right_key") then
        match inputs, dget params "left_key", dget params "right_key" with
        | [l, r], some (.vs lk), some (.vs rk) =>
            if f = .smjF then RelationalOperators.sort_merge_join l r lk rk
            else RelationalOperators.hash_join l r lk rk
        | [_, _], some _, some _ => .error (.keyError "non-string join key")
        | _, _, _ => .error (.typeError "missing join key arguments")
      else if inputs.length = 4 ∧ params.isEmpty then
        .error (.keyError "get_column with a table as key")
      else .error (.typeError "unexpected keyword argument or bad arity")
  | .groupByF =>
      if inputs.length = 1 ∧
          params.all (fun p =>
            p.1 = "group_cols" ∨ p.1 = "agg_col" ∨ p.1 = "agg_func") then
        match inputs, dget params "group_cols", dget params "agg_col",
            dget params "agg_func" with
        | [t], some (.vstrs gs), some (.vs ac), some (.vs af) =>
            RelationalOperators.group_by t gs ac af
        | [_], _, _, _ => .error (.typeError "missing or mistyped arguments")
        | _, _, _, _ => .error (.typeError "bad binding")
      else .error (.typeError "unexpected keyword argument or bad arity")

/-- Adapter attempt 3, `op_func(*inputs)`: positional-only binding.  With
the arities this repository produces every implementation either rejects
the call (`TypeError`) or runs a body whose first operation on a
wrongly-typed argument raises; see each arm. -/
def callAttempt3 (f : OpFunc) (inputs : List TensorTable) :
    Except PyErr TensorTable :=
  match f with
  | .scanF =>
      -- one input: missing `tables`; two: body subscripts a TensorTable;
      -- otherwise arity mismatch — TypeError in every case
      .error (.typeError "bad arity or not subscriptable")
  | .filterF =>
      if inputs.length = 2 then
        -- filter(t1, t2): compile accesses expr_type on a TensorTable
        .error (.attributeError "TensorTable has no attribute expr_type")
      else .error (.typeError "bad arity")
  | .projectF =>
      -- project(t1, t2) iterates a TensorTable (no __iter__): TypeError
      .error (.typeError "bad arity or not iterable")
  | .sortF =>
      if inputs.length = 2 ∨ inputs.length = 3 then
        -- sort(t1, t2, ...): get_column looks a TensorTable key up
        .error (.keyError "get_column with a table as key")
      else .error (.typeError "bad arity")
  | .smjF | .hashJoinF =>
      if inputs.length = 4 then
        .error (.keyError "get_column with a table as key")
      else .error (.typeError "bad arity")
  | .groupByF =>
      -- group_by(t1..t4): the body subscripts or iterates a TensorTable
      .error (.typeError "bad arity or not subscriptable")

/-- `TQPExecutor._call_op_flexible`: try the three call shapes in order,
falling through on `TypeError` only; if the third also raises `TypeError`,
raise the operator-call-failed `TypeError`. -/
def call_op_flexible (f : OpFunc) (inputs : List TensorTable) (params : Params) :
    Except PyErr TensorTable :=
  match callAttempt1 f inputs params with
  | .error (.typeError _) =>
      match callAttempt2 f inputs params with
      | .error (.typeError _) =>
          match callAttempt3 f inputs with
          | .error (.typeError _) => .error (.typeError operatorCallFailedMsg)
          | r => r
      | r => r
  | r => r

/-- The legacy `filter`/`project` branches' direct two-positional-argument
call `op_func(table, x)`, for each possible `op_func` value: the matching
implementation runs; implementations of other arity raise `TypeError`
(caught by the branch's fallback); two-argument implementations given the
wrong second argument fail inside their body. -/
def call2 (f : OpFunc) (t : TensorTable) (x : PVal) : Except PyErr TensorTable :=
  match f with
  | .filterF =>
      match x with
      | .vcond e => RelationalOperators.filter t e
      | _ => .error (.attributeError "no attribute expr_type")
  | .projectF =>
      match x with
      | .vstrs ss => RelationalOperators.project t ss
      | .vs s => RelationalOperators.project t (s.data.map Char.toString)
      | .vschema m => RelationalOperators.project t (m.map Prod.fst)
      | _ => .error (.typeError "argument not iterable")
  | .sortF =>
      -- sort(t, x, default True): hashable non-column keys miss (KeyError),
      -- unhashable ones raise TypeError
      match x with
      | .vs k => RelationalOperators.sort t k true
      | .vq _ | .vb _ | .vnone => .error (.keyError "key is not a column")
      | _ => .error (.typeError "unhashable key")
  | .scanF =>
      -- scan(t, x): the body subscripts x with the table as key
      match x with
      | .vschema _ => .error (.keyError "table lookup with a table as key")
      | _ => .error (.typeError "argument not subscriptable")
  | .smjF | .hashJoinF | .groupByF =>
      .error (.typeError "missing required positional arguments")

/-- The legacy `sort` branch's direct call `op_func(table, key, ascending)`:
only `sort` has this arity; every other implementation raises `TypeError`. -/
def call3Sort (f : OpFunc) (t : TensorTable) (k : PVal) (asc : Bool) :
    Except PyErr TensorTable :=
  match f with
  | .sortF =>
      match k with
      | .vs key => RelationalOperators.sort t key asc
      | .vq _ | .vb _ | .vnone => .error (.keyError "key is not a column")
      | _ => .error (.typeError "unhashable key")
  | _ => .error (.typeError "bad arity")

/-- The legacy join branches' direct call
`op_func(left, right, left_key, right_key)`: the two joins run; `group_by`
also binds four arguments but its body subscripts or iterates the right
table (`TypeError`); the two- and three-parameter implementations reject
the call (`TypeError`). -/
def call4Join (f : OpFunc) (l r : TensorTable) (lk rk : PVal) :
    Except PyErr TensorTable :=
  match f with
  | .smjF =>
      match lk, rk with
      | .vs a, .vs b => RelationalOperators.sort_merge_join l r a b
      | _, _ => .error (.keyError "join key lookup with non-string key")
  | .hashJoinF =>
      match lk, rk with
      | .vs a, .vs b => RelationalOperators.hash_join l r a b
      | _, _ => .error (.keyError "join key lookup with non-string key")
  | .groupByF => .error (.typeError "table argument not subscriptable or iterable")
  | _ => .error (.typeError "bad arity")

/-- The legacy `group_by` branch's direct call
`op_func(table, group_cols, agg_col, agg_fn)`: `group_by` runs (a string
`group_cols` is iterated character-wise, exactly as Python would); the
joins bind four arguments but fail inside their body (`KeyError` on the
left key or `AttributeError` on `right.get_column`); the rest reject the
arity (`TypeError`). -/
def call4GroupBy (f : OpFunc) (t : TensorTable) (gc : PVal) (ac af : String) :
    Except PyErr TensorTable :=
  match f with
  | .groupByF =>
      match gc with
      | .vstrs gs => RelationalOperators.group_by t gs ac af
      | .vs s => RelationalOperators.group_by t (s.data.map Char.toString) ac af
      | _ => .error (.typeError "group_cols argument not iterable")
  | .smjF | .hashJoinF =>
      if (dget t.columns ac).isSome then
        .error (.attributeError "list object has no attribute get_column")
      else .error (.keyError ac)
  | _ => .error (.typeError "bad arity")

/-- The environment key of the one-slot pending-join buffer. -/
def pendingKey : String := "__pending_join"

/-- The `KeyError` message for a missing explicit-node input, carrying the
node's `op` tag and the missing names. -/
def missingInputMsg (op : Option String) (missing : List String) : String :=
  "Missing input(s) for node '" ++ (match op with | some s => s | none => "None") ++
    "': " ++ String.intercalate ", " missing

/-- The interpreter state of one `execute` call: the caller's `tables`
mapping (read once to seed the environment, line 96: `env = dict(tables)`),
the environment of named results, the generated-name counter, and the name
of the last produced result. -/
structure ExecState where
  tables : List (String × TensorTable)
  env : List (String × TensorTable)
  tmp_counter : ℕ
  last_name : String
deriving Repr

end TQPExecutor

namespace TQPExecutor

/-- One iteration of the `execute` loop (lines 101–251 of the source) on
one plan element.  Every legacy element first allocates the next generated
output name (`__tmp<N>`, counter incremented unconditionally); explicit
nodes generate a name only when `output` is absent or falsy.  Errors abort
the call. -/
def execStep (s : ExecState) (elem : PlanElem) : Except PyErr ExecState :=
  match elem with
  | .node op op_func inputs_names output params =>
      match op_func with
      | none => .error (.valueError "Plan node missing op_func")
      | some f =>
          let missing := inputs_names.filter fun n => (dget s.env n).isNone
          if missing.isEmpty then
            let inputs_vals := inputs_names.filterMap fun n => dget s.env n
            match call_op_flexible f inputs_vals params with
            | .error e => .error e
            | .ok result =>
                let useGen :=
                  match output with
                  | none => true
                  | some o => o = ""
                let oname :=
                  if useGen then "__tmp" ++ toString s.tmp_counter
                  else output.getD ""
                let ctr := if useGen then s.tmp_counter + 1 else s.tmp_counter
                .ok ⟨s.tables, dictInsert s.env oname result, ctr, oname⟩
          else .error (.keyError (missingInputMsg op missing))
  | .legacy op_name f params =>
      let output_name := "__tmp" ++ toString s.tmp_counter
      let ctr := s.tmp_counter + 1
      let store : TensorTable → ExecState := fun result =>
        ⟨s.tables, dictInsert s.env output_name result, ctr, output_name⟩
      if op_name = "scan" then
        match resolve_legacy_input s.last_name params s.env with
        | .error e => .error e
        | .ok input_val =>
            match call_op_flexible f [input_val] params with
            | .error e => .error e
            | .ok result => .ok (store result)
      else if op_name = "filter" then
        match resolve_legacy_input s.last_name params s.env with
        | .error e => .error e
        | .ok input_val =>
            match dget params "condition" with
            | none => .error (.keyError "filter params must include 'condition'")
            | some c =>
                if c.isNoneV then
                  .error (.keyError "filter params must include 'condition'")
                else
                  let r :=
                    match call2 f input_val c with
                    | .error (.typeError _) => call_op_flexible f [input_val] params
                    | r => r
                  match r with
                  | .error e => .error e
                  | .ok result => .ok (store result)
      else if op_name = "project" then
        match resolve_legacy_input s.last_name params s.env with
        | .error e => .error e
        | .ok input_val =>
            match dget params "columns" with
            | none => .error (.keyError "project params must include 'columns'")
            | some c =>
                if c.isNoneV then
                  .error (.keyError "project params must include 'columns'")
                else
                  let r :=
                    match call2 f input_val c with
                    | .error (.typeError _) => call_op_flexible f [input_val] params
                    | r => r
                  match r with
                  | .error e => .error e
                  | .ok result => .ok (store result)
      else if op_name = "sort" then
        match resolve_legacy_input s.last_name params s.env with
        | .error e => .error e
        | .ok input_val =>
            let ascending :=
              match dget params "ascending" with
              | some a => a.truthy
              | none => true
            match dget params "key" with
            | none => .error (.keyError "sort params must include 'key'")
            | some k =>
                if k.isNoneV then
                  .error (.keyError "sort params must include 'key'")
                else
                  let r :=
                    match call3Sort f input_val k ascending with
                    | .error (.typeError _) => call_op_flexible f [input_val] params
                    | r => r
                  match r with
                  | .error e => .error e
                  | .ok result => .ok (store result)
      else if op_name = "sort_join" ∨ op_name = "hash_join" then
        match dget s.env pendingKey with
        | none =>
            if s.last_name = "" then
              .error (.runtimeError (op_name ++ " left input missing"))
            else
              match dget s.env s.last_name with
              | none => .error (.keyError s.last_name)
              | some t =>
                  -- stash the left side, clear the last name, produce nothing
                  .ok ⟨s.tables, dictInsert s.env pendingKey t, ctr, ""⟩
        | some left =>
            if s.last_name = "" then
              .error (.runtimeError (op_name ++ " right input missing"))
            else
              let popped := dictErase s.env pendingKey
              match dget popped s.last_name with
              | none => .error (.keyError s.last_name)
              | some right =>
                  match dget params "left_key", dget params "right_key" with
                  | some lk, some rk =>
                      if lk.isNoneV ∨ rk.isNoneV then
                        .error (.keyError
                          (op_name ++ " params must include 'left_key' and 'right_key'"))
                      else
                        let r :=
                          match call4Join f left right lk rk with
                          | .error (.typeError _) =>
                              call_op_flexible f [left, right] params
                          | r => r
                        match r with
                        | .error e => .error e
                        | .ok result =>
                            .ok ⟨s.tables, dictInsert popped output_name result,
                                 ctr, output_name⟩
                  | _, _ =>
                      .error (.keyError
                        (op_name ++ " params must include 'left_key' and 'right_key'"))
      else if op_name = "group_by" then
        match resolve_legacy_input s.last_name params s.env with
        | .error e => .error e
        | .ok input_val =>
            match dget params "agg_exprs" with
            | some (.vaggs (e0 :: _)) =>
                (match dget params "group_cols", e0.column, e0.function with
                 | some gc, some ac, some af =>
                     if gc.isNoneV then
                       .error (.keyError "group_by params missing required keys")
                     else
                       let r :=
                         match call4GroupBy f input_val gc ac af with
                         | .error (.typeError _) =>
                             call_op_flexible f [input_val] params
                         | r => r
                       match r with
                       | .error e => .error e
                       | .ok result => .ok (store result)
                 | _, _, _ =>
                     .error (.keyError "group_by params missing required keys"))
            | some (.vstrs (_ :: _)) =>
                -- a non-empty plain list passes the isinstance check but its
                -- first element has no `.get`
                .error (.attributeError "str object has no attribute get")
            | _ => .error (.keyError "group_by params must include 'agg_exprs' list")
      else
        -- generic fallback for an unknown legacy op name
        let inputsE : Except PyErr (List TensorTable) :=
          if s.last_name ≠ "" then
            match dget s.env s.last_name with
            | some t => .ok [t]
            | none => .error (.keyError s.last_name)
          else .ok []
        match inputsE with
        | .error e => .error e
        | .ok inputs_vals =>
            match call_op_flexible f inputs_vals params with
            | .error (.typeError _) =>
                .error (.typeError ("Failed to call legacy op '" ++ op_name ++ "'"))
            | .error e => .error e
            | .ok result => .ok (store result)

/-- The `execute` loop over the plan elements, returning the state reached
together with the error that aborted it, if any. -/
def execLoop : List PlanElem → ExecState → ExecState × Option PyErr
  | [], s => (s, none)
  | e :: rest, s =>
      match execStep s e with
      | .ok s' => execLoop rest s'
      | .error err => (s, some err)

/-- `TQPExecutor.execute`: reject an empty plan (`ValueError`), seed the
environment with a copy of the caller's tables, run every element, then
return `env['final']` if present, else the last produced result, else
`RuntimeError`. -/
def execute (plan : List PlanElem) (tables : List (String × TensorTable)) :
    Except PyErr TensorTable :=
  if plan.isEmpty then .error (.valueError "Empty execution plan")
  else
    match execLoop plan ⟨tables, tables, 0, ""⟩ with
    | (_, some err) => .error err
    | (s, none) =>
        match dget s.env "final" with
        | some t => .ok t
        | none =>
            if s.last_name ≠ "" then
              match dget s.env s.last_name with
              | some t => .ok t
              | none => .error (.runtimeError "Plan executed but produced no results")
            else .error (.runtimeError "Plan executed but produced no results")

end TQPExecutor

/-! ## Derived observables used in the claim statements -/

/-- The row indices a boolean mask retains, in original order. -/
def keptIdx (m : List Bool) : List ℕ :=
  (List.range m.length).filter fun i => m.getD i false

/-- Σ over left rows of the number of right rows with an equal key: the row
count both joins are claimed to produce. -/
def joinMultSum (lk rk : List ℚ) : ℕ :=
  ((List.range lk.length).map
    (fun i => (RelationalOperators.matchIdx rk (lk.getD i 0)).length)).sum

/-- The observable row of a joined pair `(i, j)`: the left row's cells then
the right row's cells. -/
def joinRowAt (left right : TensorTable) (p : ℕ × ℕ) : List TVal :=
  (left.columns.map fun c => c.2.atv p.1) ++ (right.columns.map fun c => c.2.atv p.2)

/-- The table both joins materialize for a non-empty pair list: left columns
gathered at the left indices under prefix `left_`, then right columns
gathered at the right indices under prefix `right_`, with the matching
schema tags. -/
def joinedTable (left right : TensorTable) (pairs : List (ℕ × ℕ)) : TensorTable :=
  ⟨(left.columns.map fun p =>
      ("left_" ++ p.1, p.2.gather (pairs.map Prod.fst))) ++
     (right.columns.map fun p =>
       ("right_" ++ p.1, p.2.gather (pairs.map Prod.snd))),
   (left.columns.map fun p => ("left_" ++ p.1, (dget left.schema p.1).getD "")) ++
     (right.columns.map fun p => ("right_" ++ p.1, (dget right.schema p.1).getD ""))⟩

/-! ## General lemmas about the dict and list model -/

theorem dget_mem {α : Type} {m : List (String × α)} {k : String} {v : α}
    (h : dget m k = some v) : (k, v) ∈ m := by
  induction m with
  | nil => simp [dget] at h
  | cons p rest ih =>
      obtain ⟨k', v'⟩ := p
      by_cases hk : k' = k
      · subst hk
        rw [dget, if_pos rfl] at h
        injection h with h
        subst h
        exact List.mem_cons_self _ _
      · simp only [dget, if_neg hk] at h
        exact List.mem_cons_of_mem _ (ih h)

theorem range_map_getD {α : Type} (d : α) : ∀ l : List α,
    (List.range l.length).map (fun i => l.getD i d) = l := by
  intro l
  induction l with
  | nil => simp
  | cons a t ih =>
      rw [List.length_cons, List.range_succ_eq_map]
      simp only [List.map_cons, List.map_map, List.getD_cons_zero]
      refine congrArg (a :: ·) ?_
      have : ((fun i => (a :: t).getD i d) ∘ Nat.succ) = fun i => t.getD i d := by
        funext i
        simp [List.getD_cons_succ]
      rw [this, ih]

theorem getD_map_lt {α β : Type} (f : α → β) {l : List α} {i : ℕ}
    (h : i < l.length) (d : β) (d' : α) :
    (l.map f).getD i d = f (l.getD i d') := by
  rw [List.getD_eq_getElem?_getD, List.getD_eq_getElem?_getD, List.getElem?_map,
    List.getElem?_eq_getElem h]
  simp

/-! ## C8: optimizer passes -/

theorem remove_redundant_projections_eq_self (x : IRNode) :
    IROptimizer.remove_redundant_projections x = x := by
  induction x using IROptimizer.remove_redundant_projections.induct with
  | _ op cs ps ih =>
      rw [IROptimizer.remove_redundant_projections]
      refine congrArg (fun l => IRNode.mk op l ps) ?_
      calc cs.attach.map (fun c => IROptimizer.remove_redundant_projections c.1)
          = cs.attach.map (fun c => c.1) := by
            refine List.map_congr_left ?_
            intro a _
            exact ih a
        _ = cs := List.attach_map_subtype_val cs

/-- C8: `IROptimizer.canonicalize` and `IROptimizer.optimize` are idempotent
on every IR tree — applying either pass twice yields the same tree as
applying it once.  (Both passes are plain total functions of the tree by
construction, so neither can fail on a structurally valid IR.) -/
theorem C8_optimizer_passes_idempotent (x : IRNode) :
    IROptimizer.canonicalize (IROptimizer.canonicalize x) = IROptimizer.canonicalize x ∧
    IROptimizer.optimize (IROptimizer.optimize x) = IROptimizer.optimize x := by
  constructor
  · rw [IROptimizer.canonicalize, IROptimizer.canonicalize,
      remove_redundant_projections_eq_self]
  · rfl

/-! ## C10: the caller's tables mapping is never touched -/

theorem execStep_preserves_tables {s s' : TQPExecutor.ExecState} {e : PlanElem}
    (h : TQPExecutor.execStep s e = .ok s') : s'.tables = s.tables := by
  cases e with
  | node op f inputs output params =>
      simp only [TQPExecutor.execStep] at h
      repeat' split at h
      all_goals first
        | (injection h with h2; subst h2; rfl)
        | injection h
  | legacy op_name f params =>
      simp only [TQPExecutor.execStep] at h
      repeat' split at h
      all_goals first
        | (injection h with h2; subst h2; rfl)
        | injection h

theorem execLoop_preserves_tables (plan : List PlanElem) :
    ∀ s : TQPExecutor.ExecState,
      ((TQPExecutor.execLoop plan s).1).tables = s.tables := by
  induction plan with
  | nil => intro s; rfl
  | cons e rest ih =>
      intro s
      rw [TQPExecutor.execLoop]
      cases he : TQPExecutor.execStep s e with
      | ok s' =>
          simp only
          rw [ih s']
          exact execStep_preserves_tables he
      | error err => rfl

/-- C10: `execute` stores every intermediate and final result in the fresh
internal environment it seeds from the caller's mapping (`env = dict(tables)`);
whether the run completes or aborts with an error after any number of steps,
the state's `tables` component — the caller's name-to-table mapping — is
exactly the bindings supplied at the start. -/
theorem C10_execute_preserves_caller_tables
    (plan : List PlanElem) (tables : List (String × TensorTable)) :
    ((TQPExecutor.execLoop plan ⟨tables, tables, 0, ""⟩).1).tables = tables :=
  execLoop_preserves_tables plan _

/-! ## C7: input resolution priority and missing-input errors -/

/-- C7: legacy single-input resolution follows the strict priority
(1) previous result ("last name"), (2) `params.table`, (3) `params.input`,
and raises the no-input `RuntimeError` when all three are absent; a
one-step legacy filter program with empty last name and neither `table` nor
`input` raises exactly that error from `execute`; and an explicit node
whose `inputs` contain names absent from the environment fails with the
`KeyError` naming the missing entries. -/
theorem C7_input_resolution_priority :
    (∀ (last : String) (params : Params) (env : List (String × TensorTable)) t,
       last ≠ "" → dget env last = some t →
       TQPExecutor.resolve_legacy_input last params env = .ok t) ∧
    (∀ (params : Params) (env : List (String × TensorTable)) (n : String) t,
       dget params "table" = some (.vs n) → n ≠ "" → dget env n = some t →
       TQPExecutor.resolve_legacy_input "" params env = .ok t) ∧
    (∀ (params : Params) (env : List (String × TensorTable)) (n : String) t,
       dget params "table" = none → dget params "input" = some (.vs n) →
       n ≠ "" → dget env n = some t →
       TQPExecutor.resolve_legacy_input "" params env = .ok t) ∧
    (∀ (params : Params) (env : List (String × TensorTable)),
       dget params "table" = none → dget params "input" = none →
       TQPExecutor.resolve_legacy_input "" params env =
         .error (.runtimeError TQPExecutor.noInputMsg)) ∧
    (∀ (f : OpFunc) (params : Params) (tables : List (String × TensorTable)),
       dget params "table" = none → dget params "input" = none →
       TQPExecutor.execute [.legacy "filter" f params] tables =
         .error (.runtimeError TQPExecutor.noInputMsg)) ∧
    (∀ (s : TQPExecutor.ExecState) (op : Option String) (f : OpFunc)
       (inputs : List String) (output : Option String) (params : Params),
       (inputs.filter fun n => (dget s.env n).isNone) ≠ [] →
       TQPExecutor.execStep s (.node op (some f) inputs output params) =
         .error (.keyError (TQPExecutor.missingInputMsg op
           (inputs.filter fun n => (dget s.env n).isNone)))) := by
  refine ⟨?_, ?_, ?_, ?_, ?_, ?_⟩
  · intro last params env t hlast ht
    rw [TQPExecutor.resolve_legacy_input, if_pos hlast, ht]
  · intro params env n t hT hn ht
    rw [TQPExecutor.resolve_legacy_input, if_neg (by simp), hT]
    have htr : PVal.truthy (.vs n) = true := by simp [PVal.truthy, hn]
    simp [htr, ht]
  · intro params env n t hT hI hn ht
    rw [TQPExecutor.resolve_legacy_input, if_neg (by simp), hT, hI]
    have htr : PVal.truthy (.vs n) = true := by simp [PVal.truthy, hn]
    simp [htr, ht]
  · intro params env hT hI
    rw [TQPExecutor.resolve_legacy_input, if_neg (by simp), hT, hI]
  · intro f params tables hT hI
    have hres : TQPExecutor.resolve_legacy_input "" params tables =
        .error (.runtimeError TQPExecutor.noInputMsg) := by
      rw [TQPExecutor.resolve_legacy_input, if_neg (by simp), hT, hI]
    simp [TQPExecutor.execute, TQPExecutor.execLoop, TQPExecutor.execStep, hres]
  · intro s op f inputs output params hmiss
    simp only [TQPExecutor.execStep]
    have : (inputs.filter fun n => (dget s.env n).isNone).isEmpty = false := by
      simpa [List.isEmpty_iff] using hmiss
    simp [this]

theorem C7_input_resolution_priority_witness :
    (TQPExecutor.resolve_legacy_input "x" []
        [("x", ⟨[("c", Tensor.num [1])], [("c", "numeric")]⟩)] =
      .ok ⟨[("c", Tensor.num [1])], [("c", "numeric")]⟩) ∧
    (TQPExecutor.resolve_legacy_input "" [("table", .vs "t")]
        [("t", (⟨[], []⟩ : TensorTable))] = .ok ⟨[], []⟩) ∧
    (TQPExecutor.resolve_legacy_input "" [("input", .vs "t")]
        [("t", (⟨[], []⟩ : TensorTable))] = .ok ⟨[], []⟩) ∧
    (TQPExecutor.resolve_legacy_input "" [] [] =
      .error (.runtimeError TQPExecutor.noInputMsg)) ∧
    (TQPExecutor.execute [.legacy "filter" .filterF []] [] =
      .error (.runtimeError TQPExecutor.noInputMsg)) ∧
    (TQPExecutor.execStep ⟨[], [], 0, ""⟩
        (.node (some "filter") (some .filterF) ["missing"] none []) =
      .error (.keyError (TQPExecutor.missingInputMsg (some "filter") ["missing"]))) :=
  ⟨C7_input_resolution_priority.1 "x" [] _ _ (by decide) rfl,
   C7_input_resolution_priority.2.1 _ _ "t" _ rfl (by decide) rfl,
   C7_input_resolution_priority.2.2.1 _ _ "t" _ rfl rfl (by decide) rfl,
   C7_input_resolution_priority.2.2.2.1 [] [] rfl rfl,
   C7_input_resolution_priority.2.2.2.2.1 .filterF [] [] rfl rfl,
   C7_input_resolution_priority.2.2.2.2.2 ⟨[], [], 0, ""⟩ (some "filter") .filterF
     ["missing"] none [] (by decide)⟩

/-! ## C9: planner-emitted legacy scan steps always fail in the adapter -/

/-- C9: a legacy `("scan", RelationalOperators.scan, params)` step whose
params carry the planner's `table` and `schema` keys fails even when input
resolution succeeds: the adapter's first shape hashes the inputs list as a
dict key (`TypeError`), the second rejects `table`/`schema` as unexpected
keywords (`TypeError`), the third misses the `tables` argument
(`TypeError`), so the step ends with the adapter's operator-call-failed
`TypeError` instead of returning the scanned table. -/
theorem C9_legacy_scan_step_fails (s : TQPExecutor.ExecState) (params : Params)
    (tname : String) (v : PVal) (tbl : TensorTable)
    (htab : dget params "table" = some (.vs tname))
    (_hsch : dget params "schema" = some v)
    (hres : TQPExecutor.resolve_legacy_input s.last_name params s.env = .ok tbl) :
    TQPExecutor.execStep s (.legacy "scan" .scanF params) =
      .error (.typeError TQPExecutor.operatorCallFailedMsg) := by
  have hcond : (params.any fun p => decide (¬p.1 = "table_name" ∧ ¬p.1 = "tables")) = true := by
    rw [List.any_eq_true]
    refine ⟨("table", .vs tname), dget_mem htab, ?_⟩
    simp
  simp only [TQPExecutor.execStep, hres, TQPExecutor.call_op_flexible,
    TQPExecutor.callAttempt1, TQPExecutor.callAttempt2, TQPExecutor.callAttempt3]
  rw [if_pos (Or.inl hcond)]
  simp

theorem C9_legacy_scan_step_fails_witness :
    (dget [("table", PVal.vs "t"), ("schema", PVal.vschema [("c", "numeric")])]
        "table" = some (.vs "t")) ∧
    (TQPExecutor.resolve_legacy_input ""
        [("table", PVal.vs "t"), ("schema", PVal.vschema [("c", "numeric")])]
        [("t", ⟨[("c", Tensor.num [1, 2])], [("c", "numeric")]⟩)] =
      .ok ⟨[("c", Tensor.num [1, 2])], [("c", "numeric")]⟩) ∧
    TQPExecutor.execStep
        ⟨[("t", ⟨[("c", Tensor.num [1, 2])], [("c", "numeric")]⟩)],
         [("t", ⟨[("c", Tensor.num [1, 2])], [("c", "numeric")]⟩)], 0, ""⟩
        (.legacy "scan" .scanF
          [("table", PVal.vs "t"), ("schema", PVal.vschema [("c", "numeric")])]) =
      .error (.typeError TQPExecutor.operatorCallFailedMsg) :=
  ⟨rfl, rfl,
   C9_legacy_scan_step_fails _ _ "t" (PVal.vschema [("c", "numeric")]) _ rfl rfl rfl⟩

/-! ## C6: the legacy two-phase join protocol -/

theorem gatherCols_no_typeError (pre : String) (schema : List (String × String))
    (idx : List ℕ) :
    ∀ (cols : List (String × Tensor)) (msg : String),
      RelationalOperators.gatherCols pre schema idx cols ≠ .error (.typeError msg) := by
  intro cols
  induction cols with
  | nil => intro msg h; simp [RelationalOperators.gatherCols] at h
  | cons p rest ih =>
      intro msg h
      simp only [RelationalOperators.gatherCols] at h
      cases hd : dget schema p.1 with
      | none => rw [hd] at h; simp at h
      | some tag =>
          rw [hd] at h
          cases hr : RelationalOperators.gatherCols pre schema idx rest with
          | ok l => rw [hr] at h; simp [Except.map] at h
          | error e =>
              rw [hr] at h
              simp only [Except.map, Except.error.injEq] at h
              exact ih msg (by rw [hr, h])

theorem materializeJoin_no_typeError (left right : TensorTable)
    (pairs : List (ℕ × ℕ)) (msg : String) :
    RelationalOperators.materializeJoin left right pairs ≠ .error (.typeError msg) := by
  intro h
  rw [RelationalOperators.materializeJoin] at h
  split at h
  · simp at h
  · rw [RelationalOperators.gatherSide] at h
    cases hl : RelationalOperators.gatherCols "left_" left.schema
        (pairs.map Prod.fst) left.columns with
    | error e =>
        rw [hl] at h
        injection h with h2
        exact gatherCols_no_typeError _ _ _ _ msg (by rw [hl, h2])
    | ok l =>
        rw [hl, RelationalOperators.gatherSide] at h
        cases hr : RelationalOperators.gatherCols "right_" right.schema
            (pairs.map Prod.snd) right.columns with
        | error e =>
            rw [hr] at h
            injection h with h2
            exact gatherCols_no_typeError _ _ _ _ msg (by rw [hr, h2])
        | ok r => rw [hr] at h; simp at h

theorem sort_merge_join_no_typeError (l r : TensorTable) (a b : String)
    (msg : String) :
    RelationalOperators.sort_merge_join l r a b ≠ .error (.typeError msg) := by
  intro h
  rw [RelationalOperators.sort_merge_join] at h
  cases hga : l.get_column a with
  | none => rw [hga] at h; simp at h
  | some lt =>
      rw [hga] at h
      cases hgb : r.get_column b with
      | none => rw [hgb] at h; simp at h
      | some rt =>
          rw [hgb] at h
          cases lt <;> cases rt <;> simp at h <;>
            exact materializeJoin_no_typeError _ _ _ msg (by assumption)

theorem hash_join_no_typeError (l r : TensorTable) (a b : String) (msg : String) :
    RelationalOperators.hash_join l r a b ≠ .error (.typeError msg) := by
  intro h
  rw [RelationalOperators.hash_join] at h
  cases hga : l.get_column a with
  | none => rw [hga] at h; simp at h
  | some lt =>
      rw [hga] at h
      cases hgb : r.get_column b with
      | none => rw [hgb] at h; simp at h
      | some rt =>
          rw [hgb] at h
          cases lt <;> cases rt <;> simp at h <;>
            exact materializeJoin_no_typeError _ _ _ msg (by assumption)

/-- C6: legacy `sort_join`/`hash_join` steps follow the two-phase
pending-left protocol: with no pending left, the current last result is
stashed under the pending key, the last name is cleared and no output is
produced (a missing last result raises the left `JoinOperandMissing`
`RuntimeError`); with a pending left present, the current last result
becomes the right operand, the pending slot is popped, `left_key` and
`right_key` are required (`KeyError` otherwise), the join implementation is
invoked on `(left, right, left_key, right_key)` and its result is stored as
the new last result (a missing last result raises the right
`JoinOperandMissing` `RuntimeError`). -/
theorem C6_legacy_join_two_phase (s : TQPExecutor.ExecState) (op : String)
    (f : OpFunc) (params : Params)
    (hop : op = "sort_join" ∨ op = "hash_join")
    (hf : f = .smjF ∨ f = .hashJoinF) :
    (dget s.env TQPExecutor.pendingKey = none → s.last_name = "" →
      TQPExecutor.execStep s (.legacy op f params) =
        .error (.runtimeError (op ++ " left input missing"))) ∧
    (∀ t, dget s.env TQPExecutor.pendingKey = none → s.last_name ≠ "" →
      dget s.env s.last_name = some t →
      TQPExecutor.execStep s (.legacy op f params) =
        .ok ⟨s.tables, dictInsert s.env TQPExecutor.pendingKey t,
             s.tmp_counter + 1, ""⟩) ∧
    (∀ left, dget s.env TQPExecutor.pendingKey = some left → s.last_name = "" →
      TQPExecutor.execStep s (.legacy op f params) =
        .error (.runtimeError (op ++ " right input missing"))) ∧
    (∀ left right lk rk, dget s.env TQPExecutor.pendingKey = some left →
      s.last_name ≠ "" →
      dget (dictErase s.env TQPExecutor.pendingKey) s.last_name = some right →
      dget params "left_key" = some (.vs lk) →
      dget params "right_key" = some (.vs rk) →
      TQPExecutor.execStep s (.legacy op f params) =
        Except.map
          (fun result => (⟨s.tables,
             dictInsert (dictErase s.env TQPExecutor.pendingKey)
               ("__tmp" ++ toString s.tmp_counter) result,
             s.tmp_counter + 1,
             "__tmp" ++ toString s.tmp_counter⟩ : TQPExecutor.ExecState))
          (if f = .smjF then RelationalOperators.sort_merge_join left right lk rk
           else RelationalOperators.hash_join left right lk rk)) ∧
    (∀ left right, dget s.env TQPExecutor.pendingKey = some left →
      s.last_name ≠ "" →
      dget (dictErase s.env TQPExecutor.pendingKey) s.last_name = some right →
      (dget params "left_key" = none ∨ dget params "right_key" = none) →
      TQPExecutor.execStep s (.legacy op f params) =
        .error (.keyError (op ++ " params must include 'left_key' and 'right_key'"))) := by
  refine ⟨?_, ?_, ?_, ?_, ?_⟩
  · intro h1 h2
    rcases hop with rfl | rfl <;> simp [TQPExecutor.execStep, h1, h2]
  · intro t h1 h2 h3
    rcases hop with rfl | rfl <;> simp [TQPExecutor.execStep, h1, h2, h3]
  · intro left h1 h2
    rcases hop with rfl | rfl <;> simp [TQPExecutor.execStep, h1, h2]
  · intro left right lk rk h1 h2 h3 h4 h5
    rcases hop with rfl | rfl <;> rcases hf with rfl | rfl <;>
      simp only [TQPExecutor.execStep, TQPExecutor.call4Join] <;>
      simp [h1, h2, h3, h4, h5, PVal.isNoneV]
    · cases hj : RelationalOperators.sort_merge_join left right lk rk with
      | ok t => simp [hj, Except.map]
      | error e =>
          cases e <;>
            first
              | exact absurd hj (sort_merge_join_no_typeError left right lk rk _)
              | simp [hj, Except.map]
    · cases hj : RelationalOperators.hash_join left right lk rk with
      | ok t => simp [hj, Except.map]
      | error e =>
          cases e <;>
            first
              | exact absurd hj (hash_join_no_typeError left right lk rk _)
              | simp [hj, Except.map]
    · cases hj : RelationalOperators.sort_merge_join left right lk rk with
      | ok t => simp [hj, Except.map]
      | error e =>
          cases e <;>
            first
              | exact absurd hj (sort_merge_join_no_typeError left right lk rk _)
              | simp [hj, Except.map]
    · cases hj : RelationalOperators.hash_join left right lk rk with
      | ok t => simp [hj, Except.map]
      | error e =>
          cases e <;>
            first
              | exact absurd hj (hash_join_no_typeError left right lk rk _)
              | simp [hj, Except.map]
  · intro left right h1 h2 h3 h4
    rcases hop with rfl | rfl <;>
      rcases h4 with h4 | h4 <;>
      simp only [TQPExecutor.execStep] <;>
      simp [h1, h2, h3, h4]

theorem C6_legacy_join_two_phase_witness :
    (TQPExecutor.execStep ⟨[], [], 0, ""⟩ (.legacy "sort_join" .smjF []) =
      .error (.runtimeError ("sort_join" ++ " left input missing"))) ∧
    (TQPExecutor.execStep
        ⟨[], [("a", ⟨[("id", Tensor.num [1])], [("id", "numeric")]⟩)], 0, "a"⟩
        (.legacy "sort_join" .smjF []) =
      .ok ⟨[], dictInsert [("a", ⟨[("id", Tensor.num [1])], [("id", "numeric")]⟩)]
             TQPExecutor.pendingKey ⟨[("id", Tensor.num [1])], [("id", "numeric")]⟩,
           1, ""⟩) ∧
    (TQPExecutor.execStep
        ⟨[], [(TQPExecutor.pendingKey, ⟨[("id", Tensor.num [1])], [("id", "numeric")]⟩)],
         0, ""⟩
        (.legacy "hash_join" .hashJoinF []) =
      .error (.runtimeError ("hash_join" ++ " right input missing"))) ∧
    (TQPExecutor.execStep
        ⟨[], [(TQPExecutor.pendingKey, ⟨[("id", Tensor.num [1])], [("id", "numeric")]⟩),
              ("a", ⟨[("id", Tensor.num [1])], [("id", "numeric")]⟩)], 0, "a"⟩
        (.legacy "hash_join" .hashJoinF
          [("left_key", .vs "id"), ("right_key", .vs "id")]) =
      Except.map
        (fun result => (⟨[],
           dictInsert
             (dictErase [(TQPExecutor.pendingKey,
                 (⟨[("id", Tensor.num [1])], [("id", "numeric")]⟩ : TensorTable)),
               ("a", ⟨[("id", Tensor.num [1])], [("id", "numeric")]⟩)]
               TQPExecutor.pendingKey)
             ("__tmp" ++ toString 0) result,
           0 + 1, "__tmp" ++ toString 0⟩ : TQPExecutor.ExecState))
        (if OpFunc.hashJoinF = OpFunc.smjF then
          RelationalOperators.sort_merge_join
            ⟨[("id", Tensor.num [1])], [("id", "numeric")]⟩
            ⟨[("id", Tensor.num [1])], [("id", "numeric")]⟩ "id" "id"
         else
          RelationalOperators.hash_join
            ⟨[("id", Tensor.num [1])], [("id", "numeric")]⟩
            ⟨[("id", Tensor.num [1])], [("id", "numeric")]⟩ "id" "id")) ∧
    (TQPExecutor.execStep
        ⟨[], [(TQPExecutor.pendingKey, ⟨[("id", Tensor.num [1])], [("id", "numeric")]⟩),
              ("a", ⟨[("id", Tensor.num [1])], [("id", "numeric")]⟩)], 0, "a"⟩
        (.legacy "sort_join" .smjF [("left_key", .vs "id")]) =
      .error (.keyError ("sort_join" ++ " params must include 'left_key' and 'right_key'"))) :=
  ⟨(C6_legacy_join_two_phase ⟨[], [], 0, ""⟩ "sort_join" .smjF []
      (Or.inl rfl) (Or.inl rfl)).1 rfl rfl,
   (C6_legacy_join_two_phase _ "sort_join" .smjF []
      (Or.inl rfl) (Or.inl rfl)).2.1 _ rfl (by decide) rfl,
   (C6_legacy_join_two_phase _ "hash_join" .hashJoinF []
      (Or.inr rfl) (Or.inr rfl)).2.2.1 _ rfl rfl,
   (C6_legacy_join_two_phase _ "hash_join" .hashJoinF _
      (Or.inr rfl) (Or.inr rfl)).2.2.2.1 _ _ "id" "id" rfl (by decide) rfl rfl rfl,
   (C6_legacy_join_two_phase _ "sort_join" .smjF _
      (Or.inl rfl) (Or.inl rfl)).2.2.2.2 _ _ rfl (by decide) rfl (Or.inr rfl)⟩

/-! ## C3: sort -/

theorem argsortLe_total (ks : List ℚ) (asc : Bool) : ∀ i j,
    RelationalOperators.argsortLe ks asc i j ∨
      RelationalOperators.argsortLe ks asc j i := by
  intro i j
  unfold RelationalOperators.argsortLe
  cases asc
  · simp only [Bool.false_eq_true, if_false]
    rcases lt_trichotomy (RelationalOperators.keyAt ks i)
        (RelationalOperators.keyAt ks j) with h | h | h
    · exact Or.inr (Or.inl h)
    · rcases Nat.le_total i j with hle | hle
      · exact Or.inl (Or.inr ⟨h, hle⟩)
      · exact Or.inr (Or.inr ⟨h.symm, hle⟩)
    · exact Or.inl (Or.inl h)
  · simp only [if_true]
    rcases lt_trichotomy (RelationalOperators.keyAt ks i)
        (RelationalOperators.keyAt ks j) with h | h | h
    · exact Or.inl (Or.inl h)
    · rcases Nat.le_total i j with hle | hle
      · exact Or.inl (Or.inr ⟨h, hle⟩)
      · exact Or.inr (Or.inr ⟨h.symm, hle⟩)
    · exact Or.inr (Or.inl h)

theorem argsortLe_trans (ks : List ℚ) (asc : Bool) : ∀ i j k,
    RelationalOperators.argsortLe ks asc i j →
      RelationalOperators.argsortLe ks asc j k →
      RelationalOperators.argsortLe ks asc i k := by
  intro i j k hij hjk
  unfold RelationalOperators.argsortLe at hij hjk ⊢
  cases asc
  · simp only [Bool.false_eq_true, if_false] at hij hjk ⊢
    rcases hij with h1 | ⟨e1, l1⟩ <;> rcases hjk with h2 | ⟨e2, l2⟩
    · exact Or.inl (h2.trans h1)
    · exact Or.inl (e2 ▸ h1)
    · exact Or.inl (by rw [e1]; exact h2)
    · exact Or.inr ⟨e1.trans e2, l1.trans l2⟩
  · simp only [if_true] at hij hjk ⊢
    rcases hij with h1 | ⟨e1, l1⟩ <;> rcases hjk with h2 | ⟨e2, l2⟩
    · exact Or.inl (h1.trans h2)
    · exact Or.inl (e2 ▸ h1)
    · exact Or.inl (by rw [e1]; exact h2)
    · exact Or.inr ⟨e1.trans e2, l1.trans l2⟩

theorem argsort_perm (ks : List ℚ) (asc : Bool) :
    (RelationalOperators.argsort ks asc).Perm (List.range ks.length) :=
  List.perm_insertionSort _ _

theorem argsort_sorted (ks : List ℚ) (asc : Bool) :
    (RelationalOperators.argsort ks asc).Sorted
      (RelationalOperators.argsortLe ks asc) := by
  haveI : IsTotal ℕ (RelationalOperators.argsortLe ks asc) :=
    ⟨argsortLe_total ks asc⟩
  haveI : IsTrans ℕ (RelationalOperators.argsortLe ks asc) :=
    ⟨argsortLe_trans ks asc⟩
  exact List.sorted_insertionSort _ _

theorem dget_map_val {α β : Type} (f : α → β) :
    ∀ (m : List (String × α)) (k : String),
      dget (m.map fun p => (p.1, f p.2)) k = (dget m k).map f := by
  intro m
  induction m with
  | nil => intro k; rfl
  | cons p rest ih =>
      intro k
      simp only [List.map_cons, dget]
      by_cases h : p.1 = k
      · rw [if_pos h, if_pos h]; rfl
      · rw [if_neg h, if_neg h]; exact ih k

theorem argsort_sorted_keys (ks : List ℚ) (asc : Bool) :
    ((RelationalOperators.argsort ks asc).map fun i => ks.getD i 0).Sorted
      (fun a b => if asc then a ≤ b else a ≥ b) := by
  cases asc
  · have hs := argsort_sorted ks false
    rw [List.Sorted, List.pairwise_map]
    refine hs.imp ?_
    intro a b hab
    simp only [Bool.false_eq_true, if_false]
    rcases (by simpa [RelationalOperators.argsortLe] using hab :
        RelationalOperators.keyAt ks b < RelationalOperators.keyAt ks a ∨
          RelationalOperators.keyAt ks a = RelationalOperators.keyAt ks b ∧
            a ≤ b)
      with h | ⟨h, _⟩
    · exact le_of_lt h
    · exact ge_of_eq h
  · have hs := argsort_sorted ks true
    rw [List.Sorted, List.pairwise_map]
    refine hs.imp ?_
    intro a b hab
    simp only [if_true]
    rcases (by simpa [RelationalOperators.argsortLe] using hab :
        RelationalOperators.keyAt ks a < RelationalOperators.keyAt ks b ∨
          RelationalOperators.keyAt ks a = RelationalOperators.keyAt ks b ∧
            a ≤ b)
      with h | ⟨h, _⟩
    · exact le_of_lt h
    · exact le_of_eq h

theorem argsort_isArgsortOf (ks : List ℚ) (asc : Bool) :
    RelationalOperators.isArgsortOf ks asc
      (RelationalOperators.argsort ks asc) :=
  ⟨argsort_perm ks asc, argsort_sorted_keys ks asc⟩

/-- **C3** (amended): `sort` looks up the key column and applies the single
index permutation returned by the argsort primitive to every column,
keeping the schema; and for every index list satisfying the documented
`torch.argsort` contract (`isArgsortOf` — the model's `argsort` is one
admissible choice), the resulting key column is a permutation of the
original key values, non-decreasing for ascending order and non-increasing
for descending order.  The original claim's stable tie-break for equal keys
is not part of that contract — the source calls `torch.argsort` without
`stable=True` — and is refuted by the counterexample. -/
theorem C3_sort_orders_key_applies_one_permutation
    (table : TensorTable) (key : String) (asc : Bool) (ks : List ℚ)
    (σ : List ℕ) (hk : table.get_column key = some (Tensor.num ks))
    (hσ : RelationalOperators.isArgsortOf ks asc σ) :
    RelationalOperators.sort table key asc =
      Except.ok (RelationalOperators.sortWith
        (RelationalOperators.argsort ks asc) table) ∧
    RelationalOperators.isArgsortOf ks asc
      (RelationalOperators.argsort ks asc) ∧
    (RelationalOperators.sortWith σ table).columns =
      table.columns.map (fun p => (p.1, p.2.gather σ)) ∧
    (RelationalOperators.sortWith σ table).schema = table.schema ∧
    (∃ ks', (RelationalOperators.sortWith σ table).get_column key =
        some (Tensor.num ks') ∧
      ks'.Perm ks ∧
      ks'.Sorted (fun a b => if asc then a ≤ b else a ≥ b)) := by
  refine ⟨?_, argsort_isArgsortOf ks asc, rfl, rfl, ?_⟩
  · rw [RelationalOperators.sort, hk]
    rfl
  · refine ⟨σ.map fun i => ks.getD i 0, ?_, ?_, hσ.2⟩
    · have hd : dget (table.columns.map fun p =>
            (p.1, p.2.gather σ)) key =
          (dget table.columns key).map fun t => t.gather σ :=
        dget_map_val (fun t => t.gather σ) table.columns key
      have hk' : dget table.columns key = some (Tensor.num ks) := hk
      show dget (table.columns.map fun p => (p.1, p.2.gather σ)) key = _
      rw [hd, hk']
      rfl
    · have h := hσ.1.map fun i => ks.getD i 0
      rwa [range_map_getD] at h

/-- **C3 counterexample**: the stable tie-break clause is not guaranteed by
the code.  `sort` calls `torch.argsort` without `stable=True`, whose
contract does not fix the relative order of equal keys: the index list
`[1, 0]` satisfies that contract for the key column `[1, 1]` (ascending),
yet applying it — as `sort`'s body does — to the payload column `[10, 20]`
of two equal-key rows yields `[20, 10]`, reversing their original relative
order. -/
theorem C3_sort_not_stable_counterexample :
    RelationalOperators.isArgsortOf [1, 1] true [1, 0] ∧
    (RelationalOperators.sortWith [1, 0]
        ⟨[("k", Tensor.num [1, 1]), ("v", Tensor.num [10, 20])],
         [("k", "numeric"), ("v", "numeric")]⟩).get_column "v" =
      some (Tensor.num [20, 10]) ∧
    ([20, 10] : List ℚ) ≠ [10, 20] :=
  ⟨⟨by decide, by decide⟩, rfl, by decide⟩

/-- Witness for `C3_sort_orders_key_applies_one_permutation`: the
hypotheses hold for the table `{k: [2, 1, 2], v: [5, 6, 7]}` sorted
ascending by `k`, with the contract-satisfying index list `[1, 0, 2]`. -/
theorem C3_sort_orders_key_applies_one_permutation_witness :
    RelationalOperators.isArgsortOf [2, 1, 2] true [1, 0, 2] ∧
    (RelationalOperators.sort
        ⟨[("k", Tensor.num [2, 1, 2]), ("v", Tensor.num [5, 6, 7])],
         [("k", "numeric"), ("v", "numeric")]⟩ "k" true =
      Except.ok (RelationalOperators.sortWith
        (RelationalOperators.argsort [2, 1, 2] true)
        ⟨[("k", Tensor.num [2, 1, 2]), ("v", Tensor.num [5, 6, 7])],
         [("k", "numeric"), ("v", "numeric")]⟩)) ∧
    (∃ ks', (RelationalOperators.sortWith [1, 0, 2]
        ⟨[("k", Tensor.num [2, 1, 2]), ("v", Tensor.num [5, 6, 7])],
         [("k", "numeric"), ("v", "numeric")]⟩).get_column "k" =
        some (Tensor.num ks') ∧
      ks'.Perm [2, 1, 2] ∧
      ks'.Sorted (fun a b => if true then a ≤ b else a ≥ b)) :=
  ⟨⟨by decide, by decide⟩,
   (C3_sort_orders_key_applies_one_permutation
     ⟨[("k", Tensor.num [2, 1, 2]), ("v", Tensor.num [5, 6, 7])],
      [("k", "numeric"), ("v", "numeric")]⟩ "k" true [2, 1, 2] [1, 0, 2]
     rfl ⟨by decide, by decide⟩).1,
   (C3_sort_orders_key_applies_one_permutation
     ⟨[("k", Tensor.num [2, 1, 2]), ("v", Tensor.num [5, 6, 7])],
      [("k", "numeric"), ("v", "numeric")]⟩ "k" true [2, 1, 2] [1, 0, 2]
     rfl ⟨by decide, by decide⟩).2.2.2.2⟩

/-! ## C4: filter -/

theorem keptIdx_cons (b : Bool) (m : List Bool) :
    keptIdx (b :: m) = (if b then [0] else []) ++ (keptIdx m).map (· + 1) := by
  rw [keptIdx, keptIdx, List.length_cons, List.range_succ_eq_map,
    List.filter_cons]
  have h1 : (b :: m).getD 0 false = b := rfl
  rw [h1]
  have h2 : ((List.range m.length).map Nat.succ).filter
      (fun i => (b :: m).getD i false) =
      ((List.range m.length).filter fun i => m.getD i false).map Nat.succ := by
    rw [List.filter_map]
    rfl
  rw [h2]
  cases b <;> simp [Nat.succ_eq_add_one]

theorem keptIdx_length (m : List Bool) : (keptIdx m).length = m.count true := by
  induction m with
  | nil => rfl
  | cons b m ih =>
      rw [keptIdx_cons, List.length_append, List.length_map, ih,
        List.count_cons]
      cases b <;> simp <;> omega

theorem zip_mask_filterMap_eq_gather {α : Type} (d : α) :
    ∀ (xs : List α) (m : List Bool), xs.length = m.length →
      ((xs.zip m).filterMap fun p => if p.2 then some p.1 else none) =
        (keptIdx m).map fun i => xs.getD i d := by
  intro xs
  induction xs with
  | nil =>
      intro m hm
      have : m = [] := by
        cases m
        · rfl
        · simp at hm
      subst this
      rfl
  | cons x xs ih =>
      intro m hm
      cases m with
      | nil => simp at hm
      | cons b m' =>
          rw [List.zip_cons_cons, List.filterMap_cons, keptIdx_cons,
            List.map_append, List.map_map]
          have hlen : xs.length = m'.length := by simpa using hm
          have htail : ((xs.zip m').filterMap fun p => if p.2 then some p.1 else none) =
              (keptIdx m').map fun i => xs.getD i d := ih m' hlen
          have hcomp : ((fun i => (x :: xs).getD i d) ∘ (· + 1)) =
              fun i => xs.getD i d := by
            funext i
            simp [List.getD_cons_succ]
          rw [hcomp]
          cases b <;> simp [htail]

theorem gather_len (t : Tensor) (idx : List ℕ) :
    (t.gather idx).len = idx.length := by
  cases t <;> simp [Tensor.gather, Tensor.len]

theorem filterCols_ok (schema : List (String × String)) (mask : List Bool) :
    ∀ cols : List (String × Tensor),
      (∀ p ∈ cols, dget schema p.1 = some (TensorTable.tagOf p.2)) →
      (∀ p ∈ cols, Tensor.len p.2 = mask.length) →
      RelationalOperators.filterCols schema (.boolT mask) cols =
        .ok (cols.map fun p => (p.1, p.2.gather (keptIdx mask))) := by
  intro cols
  induction cols with
  | nil => intro _ _; rfl
  | cons p rest ih =>
      intro hsch hlen
      obtain ⟨n, t⟩ := p
      have hs := hsch (n, t) (List.mem_cons_self _ _)
      have hl := hlen (n, t) (List.mem_cons_self _ _)
      rw [RelationalOperators.filterCols, hs]
      have htail := ih (fun q hq => hsch q (List.mem_cons_of_mem _ hq))
        (fun q hq => hlen q (List.mem_cons_of_mem _ hq))
      cases t with
      | num xs =>
          simp only [TensorTable.tagOf] at hl ⊢
          rw [if_neg (by decide)]
          simp only [RelationalOperators.maskedSelect, Tensor.len] at hl ⊢
          rw [if_pos hl, htail]
          simp [zip_mask_filterMap_eq_gather (0 : ℚ) xs mask hl, Tensor.gather]
      | boolT xs =>
          simp only [TensorTable.tagOf] at hl ⊢
          rw [if_neg (by decide)]
          simp only [RelationalOperators.maskedSelect, Tensor.len] at hl ⊢
          rw [if_pos hl, htail]
          simp [zip_mask_filterMap_eq_gather false xs mask hl, Tensor.gather]
      | str2d xs =>
          simp only [TensorTable.tagOf] at hl ⊢
          rw [if_pos trivial]
          simp only [RelationalOperators.boolIndex, Tensor.len] at hl ⊢
          rw [if_pos hl, htail]
          simp [zip_mask_filterMap_eq_gather ([] : List ℕ) xs mask hl, Tensor.gather]

/-- C4: `filter` keeps, in every column alike (numeric, boolean or
string-encoded), exactly the rows at the mask's true positions and in their
original order — the result's columns are the source columns gathered at
`keptIdx mask` — and the result's row count equals the number of true
entries of the compiled condition. -/
theorem C4_filter_keeps_true_rows (table : TensorTable) (cond : Expression)
    (mask : List Bool)
    (hc : ExpressionCompiler.compile cond table = .ok (.boolT mask))
    (hwf : table.wf) (hm : mask.length = table.num_rows) :
    ∃ t' : TensorTable,
      RelationalOperators.filter table cond = .ok t' ∧
      t'.columns = (table.columns.map fun p => (p.1, p.2.gather (keptIdx mask))) ∧
      t'.schema = table.schema ∧
      t'.num_rows = mask.count true := by
  have hcols := filterCols_ok table.schema mask table.columns
    hwf.2 (fun p hp => by rw [hwf.1 p hp, hm])
  refine ⟨⟨table.columns.map fun p => (p.1, p.2.gather (keptIdx mask)),
    table.schema⟩, ?_, rfl, rfl, ?_⟩
  · simp only [RelationalOperators.filter, hc]
    rw [hcols]
  · cases htc : table.columns with
    | nil =>
        have h0 : table.num_rows = 0 := by simp [TensorTable.num_rows, htc]
        have : mask = [] := List.eq_nil_of_length_eq_zero (by rw [hm, h0])
        subst this
        simp [TensorTable.num_rows, htc]
    | cons p rest =>
        simp only [TensorTable.num_rows, htc, List.map_cons]
        rw [gather_len, keptIdx_length]

theorem C4_filter_keeps_true_rows_witness :
    (ExpressionCompiler.compile
        (.mk .lt .vnone [.mk .column (.vstr "l_quantity") [],
          .mk .literal (.vnum 24) []])
        ⟨[("l_quantity", Tensor.num [10, 30, 5, 24])], [("l_quantity", "numeric")]⟩ =
      .ok (.boolT [true, false, true, false])) ∧
    (RelationalOperators.filter
        ⟨[("l_quantity", Tensor.num [10, 30, 5, 24])], [("l_quantity", "numeric")]⟩
        (.mk .lt .vnone [.mk .column (.vstr "l_quantity") [],
          .mk .literal (.vnum 24) []]) =
      .ok ⟨[("l_quantity", Tensor.num [10, 5])], [("l_quantity", "numeric")]⟩) ∧
    ([true, false, true, false] : List Bool).count true = 2 := by
  obtain ⟨t', h1, h2, h3, h4⟩ := C4_filter_keeps_true_rows
    ⟨[("l_quantity", Tensor.num [10, 30, 5, 24])], [("l_quantity", "numeric")]⟩
    (.mk .lt .vnone [.mk .column (.vstr "l_quantity") [],
      .mk .literal (.vnum 24) []])
    [true, false, true, false] rfl (by constructor <;> decide) rfl
  refine ⟨rfl, ?_, by decide⟩
  rw [h1]
  obtain ⟨tc, ts⟩ := t'
  dsimp only at h2 h3
  subst h2
  subst h3
  rfl

/-! ## C1 and C2: the two joins -/

theorem flatMap_congr_mem {α β : Type} {l : List α} {f g : α → List β}
    (h : ∀ a ∈ l, f a = g a) : l.flatMap f = l.flatMap g := by
  induction l with
  | nil => rfl
  | cons a t ih =>
      rw [List.flatMap_cons, List.flatMap_cons, h a (List.mem_cons_self _ _),
        ih fun b hb => h b (List.mem_cons_of_mem _ hb)]

theorem range_map_comp_getD {α β : Type} (l : List α) (d : α) (h : α → β) :
    ((List.range l.length).map fun i => h (l.getD i d)) = l.map h := by
  have := congrArg (List.map h) (range_map_getD d l)
  rw [List.map_map] at this
  exact this

/-- `smjPairs` written as a flat map over the left argsort permutation: the
block of a left row depends only on its original index. -/
theorem smjPairs_eq_flatMap (lk rk : List ℚ) :
    RelationalOperators.smjPairs lk rk =
      (RelationalOperators.argsort lk true).flatMap fun l =>
        (((List.range (RelationalOperators.argsort rk true).length).filter fun j =>
            decide (rk.getD ((RelationalOperators.argsort rk true).getD j 0) 0 =
              lk.getD l 0)).map fun j =>
          (l, (RelationalOperators.argsort rk true).getD j 0)) := by
  set σL := RelationalOperators.argsort lk true with hσL
  set σR := RelationalOperators.argsort rk true with hσR
  rw [RelationalOperators.smjPairs]
  simp only [← hσL, ← hσR]
  have hlen : (σL.map fun i => lk.getD i 0).length = σL.length := List.length_map _ _
  rw [hlen]
  have hbody : ∀ i ∈ List.range σL.length,
      ((RelationalOperators.matchIdx (σR.map fun i => rk.getD i 0)
          ((σL.map fun i => lk.getD i 0).getD i 0)).map fun j =>
        (σL.getD i 0, σR.getD j 0)) =
      (((List.range σR.length).filter fun j =>
          decide (rk.getD (σR.getD j 0) 0 = lk.getD (σL.getD i 0) 0)).map fun j =>
        (σL.getD i 0, σR.getD j 0)) := by
    intro i hi
    have hi' : i < σL.length := List.mem_range.mp hi
    rw [RelationalOperators.matchIdx, List.length_map]
    rw [getD_map_lt (fun i => lk.getD i 0) hi' 0 0]
    refine congrArg _ ?_
    refine List.filter_congr ?_
    intro j hj
    have hj' : j < σR.length := List.mem_range.mp hj
    rw [getD_map_lt (fun i => rk.getD i 0) hj' 0 0]
  rw [flatMap_congr_mem hbody]
  have : ((List.range σL.length).map fun i => σL.getD i 0) = σL :=
    range_map_getD 0 σL
  calc (List.range σL.length).flatMap (fun i =>
          (((List.range σR.length).filter fun j =>
              decide (rk.getD (σR.getD j 0) 0 = lk.getD (σL.getD i 0) 0)).map fun j =>
            (σL.getD i 0, σR.getD j 0)))
      = (((List.range σL.length).map fun i => σL.getD i 0).flatMap fun l =>
          (((List.range σR.length).filter fun j =>
              decide (rk.getD (σR.getD j 0) 0 = lk.getD l 0)).map fun j =>
            (l, σR.getD j 0))) := by
        rw [List.flatMap_map]
    _ = _ := by rw [this]

/-- Each left row's block in `smjPairs` is a permutation of its block in
`hashPairs`: the matched right indices are the same set, enumerated through
the right argsort instead of in ascending order. -/
theorem smj_block_perm (rk : List ℚ) (k : ℚ) (l : ℕ) :
    ((((List.range (RelationalOperators.argsort rk true).length).filter fun j =>
        decide (rk.getD ((RelationalOperators.argsort rk true).getD j 0) 0 = k)).map
        fun j => (l, (RelationalOperators.argsort rk true).getD j 0))).Perm
      ((RelationalOperators.matchIdx rk k).map fun j => (l, j)) := by
  set σR := RelationalOperators.argsort rk true with hσR
  have hlen : σR.length = rk.length := (argsort_perm rk true).length_eq.trans
    (List.length_range _)
  have h1 : (((List.range σR.length).filter fun j =>
      decide (rk.getD (σR.getD j 0) 0 = k)).map fun j => (l, σR.getD j 0)) =
      ((σR.filter fun x => decide (rk.getD x 0 = k)).map fun x => (l, x)) := by
    have hcomp : (((List.range σR.length).filter fun j =>
        decide (rk.getD (σR.getD j 0) 0 = k)).map fun j => σR.getD j 0) =
        (((List.range σR.length).map fun j => σR.getD j 0).filter fun x =>
          decide (rk.getD x 0 = k)) := by
      rw [List.filter_map]
      rfl
    have : (((List.range σR.length).filter fun j =>
        decide (rk.getD (σR.getD j 0) 0 = k)).map fun j => (l, σR.getD j 0)) =
        ((((List.range σR.length).filter fun j =>
          decide (rk.getD (σR.getD j 0) 0 = k)).map fun j => σR.getD j 0).map
          fun x => (l, x)) := by
      rw [List.map_map]
      rfl
    rw [this, hcomp, range_map_getD 0 σR]
  rw [h1, RelationalOperators.matchIdx]
  exact ((argsort_perm rk true).filter _).map _

/-- The pair lists of the two joins are permutations of each other: the
same (left row, right row) matches, enumerated in different orders. -/
theorem smjPairs_perm_hashPairs (lk rk : List ℚ) :
    (RelationalOperators.smjPairs lk rk).Perm (RelationalOperators.hashPairs lk rk) := by
  rw [smjPairs_eq_flatMap, RelationalOperators.hashPairs]
  refine List.Perm.trans ((argsort_perm lk true).flatMap_right _) ?_
  exact List.Perm.flatMap_left _ fun l _ => smj_block_perm rk (lk.getD l 0) l

theorem gatherCols_ok (pre : String) (schema : List (String × String))
    (idx : List ℕ) :
    ∀ cols : List (String × Tensor),
      (∀ p ∈ cols, (dget schema p.1).isSome) →
      RelationalOperators.gatherCols pre schema idx cols =
        .ok (cols.map fun p => (pre ++ p.1, p.2.gather idx),
             cols.map fun p => (pre ++ p.1, (dget schema p.1).getD "")) := by
  intro cols
  induction cols with
  | nil => intro _; rfl
  | cons p rest ih =>
      intro hs
      have hp := hs p (List.mem_cons_self _ _)
      obtain ⟨tag, htag⟩ := Option.isSome_iff_exists.mp hp
      rw [RelationalOperators.gatherCols, htag,
        ih fun q hq => hs q (List.mem_cons_of_mem _ hq)]
      simp [Except.map, htag]

theorem materializeJoin_ok (left right : TensorTable) (pairs : List (ℕ × ℕ))
    (hL : ∀ p ∈ left.columns, (dget left.schema p.1).isSome)
    (hR : ∀ p ∈ right.columns, (dget right.schema p.1).isSome) :
    RelationalOperators.materializeJoin left right pairs =
      .ok (if pairs.isEmpty then ⟨[], []⟩ else joinedTable left right pairs) := by
  rw [RelationalOperators.materializeJoin]
  by_cases hp : pairs.isEmpty
  · rw [if_pos hp, if_pos hp]
  · rw [if_neg hp, if_neg hp, RelationalOperators.gatherSide,
      gatherCols_ok _ _ _ _ hL, RelationalOperators.gatherSide,
      gatherCols_ok _ _ _ _ hR]
    rfl

theorem num_rows_joinedTable (left right : TensorTable) (pairs : List (ℕ × ℕ))
    (hne : left.columns ≠ []) :
    (joinedTable left right pairs).num_rows = pairs.length := by
  rw [joinedTable]
  cases hc : left.columns with
  | nil => exact absurd hc hne
  | cons p rest =>
      simp only [TensorTable.num_rows, List.map_cons, List.cons_append]
      rw [gather_len, List.length_map]

theorem atv_gather (t : Tensor) (idx : List ℕ) {k : ℕ} (hk : k < idx.length) :
    (t.gather idx).atv k = t.atv (idx.getD k 0) := by
  cases t with
  | num xs =>
      simp only [Tensor.gather, Tensor.atv]
      rw [getD_map_lt _ hk 0 0]
  | boolT xs =>
      simp only [Tensor.gather, Tensor.atv]
      rw [getD_map_lt _ hk false 0]
  | str2d xs =>
      simp only [Tensor.gather, Tensor.atv]
      rw [getD_map_lt _ hk [] 0]

theorem rowsOf_joinedTable (left right : TensorTable) (pairs : List (ℕ × ℕ))
    (hne : left.columns ≠ []) :
    (joinedTable left right pairs).rowsOf = pairs.map (joinRowAt left right) := by
  rw [TensorTable.rowsOf, num_rows_joinedTable left right pairs hne]
  have hrow : ∀ k ∈ List.range pairs.length,
      ((joinedTable left right pairs).columns.map fun p => p.2.atv k) =
        joinRowAt left right (pairs.getD k (0, 0)) := by
    intro k hk
    have hk' : k < pairs.length := List.mem_range.mp hk
    rw [joinedTable, joinRowAt]
    simp only [List.map_append, List.map_map]
    refine congrArg₂ (· ++ ·) ?_ ?_
    · refine List.map_congr_left ?_
      intro c _
      simp only [Function.comp]
      rw [atv_gather _ _ (by rw [List.length_map]; exact hk')]
      rw [getD_map_lt Prod.fst hk' 0 (0, 0)]
    · refine List.map_congr_left ?_
      intro c _
      simp only [Function.comp]
      rw [atv_gather _ _ (by rw [List.length_map]; exact hk')]
      rw [getD_map_lt Prod.snd hk' 0 (0, 0)]
  rw [List.map_congr_left hrow, range_map_comp_getD pairs (0, 0)]

theorem hashPairs_length (lk rk : List ℚ) :
    (RelationalOperators.hashPairs lk rk).length = joinMultSum lk rk := by
  rw [RelationalOperators.hashPairs, joinMultSum, List.length_flatMap]
  refine congrArg List.sum ?_
  refine List.map_congr_left ?_
  intro i _
  simp [Function.comp]

theorem smjPairs_length (lk rk : List ℚ) :
    (RelationalOperators.smjPairs lk rk).length = joinMultSum lk rk :=
  (smjPairs_perm_hashPairs lk rk).length_eq.trans (hashPairs_length lk rk)

theorem isEmpty_false_of_length_ne {α : Type} {l : List α} (h : l.length ≠ 0) :
    l.isEmpty = false := by
  cases l with
  | nil => exact absurd rfl h
  | cons a t => rfl

theorem get_column_ne_nil {t : TensorTable} {k : String} {v : Tensor}
    (h : t.get_column k = some v) : t.columns ≠ [] := by
  intro hnil
  rw [TensorTable.get_column, hnil] at h
  simp [dget] at h

/-- C2: both joins return Σ over left rows of the number of right rows with
an equal key; on a non-empty match set the output columns are `left_<col>`
for every left column followed by `right_<col>` for every right column with
the source schema tags; when no left row has a match the result is the
empty table with no columns. -/
theorem C2_join_multiplicity_and_schema (left right : TensorTable)
    (left_key right_key : String) (lk rk : List ℚ)
    (hlk : left.get_column left_key = some (.num lk))
    (hrk : right.get_column right_key = some (.num rk))
    (hLs : ∀ p ∈ left.columns, (dget left.schema p.1).isSome)
    (hRs : ∀ p ∈ right.columns, (dget right.schema p.1).isSome) :
    ∃ TH TS : TensorTable,
      RelationalOperators.hash_join left right left_key right_key = .ok TH ∧
      RelationalOperators.sort_merge_join left right left_key right_key = .ok TS ∧
      TH.num_rows = joinMultSum lk rk ∧
      TS.num_rows = joinMultSum lk rk ∧
      (joinMultSum lk rk = 0 → TH = ⟨[], []⟩ ∧ TS = ⟨[], []⟩) ∧
      (joinMultSum lk rk ≠ 0 →
        TH.columns.map Prod.fst =
          (left.columns.map fun p => "left_" ++ p.1) ++
            (right.columns.map fun p => "right_" ++ p.1) ∧
        TS.columns.map Prod.fst =
          (left.columns.map fun p => "left_" ++ p.1) ++
            (right.columns.map fun p => "right_" ++ p.1) ∧
        TH.schema =
          (left.columns.map fun p => ("left_" ++ p.1, (dget left.schema p.1).getD "")) ++
            (right.columns.map fun p =>
              ("right_" ++ p.1, (dget right.schema p.1).getD "")) ∧
        TS.schema =
          (left.columns.map fun p => ("left_" ++ p.1, (dget left.schema p.1).getD "")) ++
            (right.columns.map fun p =>
              ("right_" ++ p.1, (dget right.schema p.1).getD ""))) := by
  have hLne : left.columns ≠ [] := get_column_ne_nil hlk
  have hH : RelationalOperators.hash_join left right left_key right_key =
      .ok (if (RelationalOperators.hashPairs lk rk).isEmpty then ⟨[], []⟩
           else joinedTable left right (RelationalOperators.hashPairs lk rk)) := by
    rw [RelationalOperators.hash_join, hlk, hrk]
    exact materializeJoin_ok left right _ hLs hRs
  have hS : RelationalOperators.sort_merge_join left right left_key right_key =
      .ok (if (RelationalOperators.smjPairs lk rk).isEmpty then ⟨[], []⟩
           else joinedTable left right (RelationalOperators.smjPairs lk rk)) := by
    rw [RelationalOperators.sort_merge_join, hlk, hrk]
    exact materializeJoin_ok left right _ hLs hRs
  by_cases hz : joinMultSum lk rk = 0
  · have hHe : (RelationalOperators.hashPairs lk rk).isEmpty = true := by
      rw [List.isEmpty_iff_length_eq_zero, hashPairs_length, hz]
    have hSe : (RelationalOperators.smjPairs lk rk).isEmpty = true := by
      rw [List.isEmpty_iff_length_eq_zero, smjPairs_length, hz]
    refine ⟨⟨[], []⟩, ⟨[], []⟩, ?_, ?_, ?_, ?_, fun _ => ⟨rfl, rfl⟩,
      fun hnz => absurd hz hnz⟩
    · rw [hH, hHe]; rfl
    · rw [hS, hSe]; rfl
    · simp [TensorTable.num_rows, hz]
    · simp [TensorTable.num_rows, hz]
  · have hHe : (RelationalOperators.hashPairs lk rk).isEmpty = false :=
      isEmpty_false_of_length_ne (by rw [hashPairs_length]; exact hz)
    have hSe : (RelationalOperators.smjPairs lk rk).isEmpty = false :=
      isEmpty_false_of_length_ne (by rw [smjPairs_length]; exact hz)
    refine ⟨joinedTable left right (RelationalOperators.hashPairs lk rk),
      joinedTable left right (RelationalOperators.smjPairs lk rk), ?_, ?_, ?_, ?_,
      fun h0 => absurd h0 hz, fun _ => ⟨?_, ?_, rfl, rfl⟩⟩
    · rw [hH, hHe]; rfl
    · rw [hS, hSe]; rfl
    · rw [num_rows_joinedTable _ _ _ hLne, hashPairs_length]
    · rw [num_rows_joinedTable _ _ _ hLne, smjPairs_length]
    · rw [joinedTable]
      simp only [List.map_append, List.map_map]
      refine congrArg₂ (· ++ ·) ?_ ?_ <;>
        exact List.map_congr_left fun p _ => rfl
    · rw [joinedTable]
      simp only [List.map_append, List.map_map]
      refine congrArg₂ (· ++ ·) ?_ ?_ <;>
        exact List.map_congr_left fun p _ => rfl

/-- C1 (amended): the two joins agree on column names, schema, and the
multiset of output rows — `sort_merge_join`'s rows are a permutation of
`hash_join`'s — but not necessarily on row order (`hash_join` scans left
rows in original order, `sort_merge_join` in sorted-key order). -/
theorem C1_joins_agree_up_to_row_order (left right : TensorTable)
    (left_key right_key : String) (lk rk : List ℚ)
    (hlk : left.get_column left_key = some (.num lk))
    (hrk : right.get_column right_key = some (.num rk))
    (hLs : ∀ p ∈ left.columns, (dget left.schema p.1).isSome)
    (hRs : ∀ p ∈ right.columns, (dget right.schema p.1).isSome) :
    ∃ TH TS : TensorTable,
      RelationalOperators.hash_join left right left_key right_key = .ok TH ∧
      RelationalOperators.sort_merge_join left right left_key right_key = .ok TS ∧
      TS.columns.map Prod.fst = TH.columns.map Prod.fst ∧
      TS.schema = TH.schema ∧
      TS.rowsOf.Perm TH.rowsOf := by
  have hLne : left.columns ≠ [] := get_column_ne_nil hlk
  have hH : RelationalOperators.hash_join left right left_key right_key =
      .ok (if (RelationalOperators.hashPairs lk rk).isEmpty then ⟨[], []⟩
           else joinedTable left right (RelationalOperators.hashPairs lk rk)) := by
    rw [RelationalOperators.hash_join, hlk, hrk]
    exact materializeJoin_ok left right _ hLs hRs
  have hS : RelationalOperators.sort_merge_join left right left_key right_key =
      .ok (if (RelationalOperators.smjPairs lk rk).isEmpty then ⟨[], []⟩
           else joinedTable left right (RelationalOperators.smjPairs lk rk)) := by
    rw [RelationalOperators.sort_merge_join, hlk, hrk]
    exact materializeJoin_ok left right _ hLs hRs
  by_cases hz : joinMultSum lk rk = 0
  · have hHe : (RelationalOperators.hashPairs lk rk).isEmpty = true := by
      rw [List.isEmpty_iff_length_eq_zero, hashPairs_length, hz]
    have hSe : (RelationalOperators.smjPairs lk rk).isEmpty = true := by
      rw [List.isEmpty_iff_length_eq_zero, smjPairs_length, hz]
    refine ⟨⟨[], []⟩, ⟨[], []⟩, ?_, ?_, rfl, rfl, List.Perm.refl _⟩
    · rw [hH, hHe]; rfl
    · rw [hS, hSe]; rfl
  · have hHe : (RelationalOperators.hashPairs lk rk).isEmpty = false :=
      isEmpty_false_of_length_ne (by rw [hashPairs_length]; exact hz)
    have hSe : (RelationalOperators.smjPairs lk rk).isEmpty = false :=
      isEmpty_false_of_length_ne (by rw [smjPairs_length]; exact hz)
    refine ⟨joinedTable left right (RelationalOperators.hashPairs lk rk),
      joinedTable left right (RelationalOperators.smjPairs lk rk), ?_, ?_, ?_, ?_, ?_⟩
    · rw [hH, hHe]; rfl
    · rw [hS, hSe]; rfl
    · rw [joinedTable, joinedTable]
      simp only [List.map_append, List.map_map]
      refine congrArg₂ (· ++ ·) ?_ ?_ <;>
        exact List.map_congr_left fun p _ => rfl
    · rw [joinedTable, joinedTable]
    · rw [rowsOf_joinedTable left right _ hLne, rowsOf_joinedTable left right _ hLne]
      exact (smjPairs_perm_hashPairs lk rk).map _

/-- C1 counterexample to the claim as stated: on `left.id = [2, 1]`,
`right.id = [1, 2]`, `hash_join` returns the rows in original left order
(`left_id = [2, 1]`) while `sort_merge_join` returns them in sorted-key
order (`left_id = [1, 2]`): the two results are different tables, so the
joins are not observationally equivalent row order included. -/
theorem C1_joins_not_identical_counterexample :
    RelationalOperators.hash_join
        ⟨[("id", Tensor.num [2, 1])], [("id", "numeric")]⟩
        ⟨[("id", Tensor.num [1, 2])], [("id", "numeric")]⟩ "id" "id" =
      .ok ⟨[("left_id", Tensor.num [2, 1]), ("right_id", Tensor.num [2, 1])],
           [("left_id", "numeric"), ("right_id", "numeric")]⟩ ∧
    RelationalOperators.sort_merge_join
        ⟨[("id", Tensor.num [2, 1])], [("id", "numeric")]⟩
        ⟨[("id", Tensor.num [1, 2])], [("id", "numeric")]⟩ "id" "id" =
      .ok ⟨[("left_id", Tensor.num [1, 2]), ("right_id", Tensor.num [1, 2])],
           [("left_id", "numeric"), ("right_id", "numeric")]⟩ ∧
    (⟨[("left_id", Tensor.num [2, 1]), ("right_id", Tensor.num [2, 1])],
       [("left_id", "numeric"), ("right_id", "numeric")]⟩ : TensorTable) ≠
      ⟨[("left_id", Tensor.num [1, 2]), ("right_id", Tensor.num [1, 2])],
       [("left_id", "numeric"), ("right_id", "numeric")]⟩ :=
  ⟨rfl, rfl, by decide⟩

theorem C1_joins_agree_up_to_row_order_witness :
    (TensorTable.rowsOf
        ⟨[("left_id", Tensor.num [1, 2]), ("right_id", Tensor.num [1, 2])],
         [("left_id", "numeric"), ("right_id", "numeric")]⟩).Perm
      (TensorTable.rowsOf
        ⟨[("left_id", Tensor.num [2, 1]), ("right_id", Tensor.num [2, 1])],
         [("left_id", "numeric"), ("right_id", "numeric")]⟩) := by
  obtain ⟨TH, TS, h1, h2, h3, h4, h5⟩ := C1_joins_agree_up_to_row_order
    ⟨[("id", Tensor.num [2, 1])], [("id", "numeric")]⟩
    ⟨[("id", Tensor.num [1, 2])], [("id", "numeric")]⟩ "id" "id" [2, 1] [1, 2]
    rfl rfl (by decide) (by decide)
  have eH : TH = ⟨[("left_id", Tensor.num [2, 1]), ("right_id", Tensor.num [2, 1])],
      [("left_id", "numeric"), ("right_id", "numeric")]⟩ :=
    Except.ok.inj (h1.symm.trans rfl)
  have eS : TS = ⟨[("left_id", Tensor.num [1, 2]), ("right_id", Tensor.num [1, 2])],
      [("left_id", "numeric"), ("right_id", "numeric")]⟩ :=
    Except.ok.inj (h2.symm.trans rfl)
  rw [eH, eS] at h5
  exact h5

theorem C2_join_multiplicity_and_schema_witness :
    (RelationalOperators.hash_join
        ⟨[("id", Tensor.num [1, 2, 2])], [("id", "numeric")]⟩
        ⟨[("id", Tensor.num [2, 2, 3])], [("id", "numeric")]⟩ "id" "id" =
      .ok ⟨[("left_id", Tensor.num [2, 2, 2, 2]), ("right_id", Tensor.num [2, 2, 2, 2])],
           [("left_id", "numeric"), ("right_id", "numeric")]⟩) ∧
    (RelationalOperators.sort_merge_join
        ⟨[("id", Tensor.num [1, 2, 2])], [("id", "numeric")]⟩
        ⟨[("id", Tensor.num [2, 2, 3])], [("id", "numeric")]⟩ "id" "id" =
      .ok ⟨[("left_id", Tensor.num [2, 2, 2, 2]), ("right_id", Tensor.num [2, 2, 2, 2])],
           [("left_id", "numeric"), ("right_id", "numeric")]⟩) ∧
    (⟨[("left_id", Tensor.num [2, 2, 2, 2]), ("right_id", Tensor.num [2, 2, 2, 2])],
       [("left_id", "numeric"), ("right_id", "numeric")]⟩ : TensorTable).num_rows =
      joinMultSum [1, 2, 2] [2, 2, 3] ∧
    joinMultSum [1, 2, 2] [2, 2, 3] = 4 := by
  obtain ⟨TH, TS, h1, h2, h3, h4, h5, h6⟩ := C2_join_multiplicity_and_schema
    ⟨[("id", Tensor.num [1, 2, 2])], [("id", "numeric")]⟩
    ⟨[("id", Tensor.num [2, 2, 3])], [("id", "numeric")]⟩ "id" "id"
    [1, 2, 2] [2, 2, 3] rfl rfl (by decide) (by decide)
  have eH : TH = ⟨[("left_id", Tensor.num [2, 2, 2, 2]),
      ("right_id", Tensor.num [2, 2, 2, 2])],
      [("left_id", "numeric"), ("right_id", "numeric")]⟩ :=
    Except.ok.inj (h1.symm.trans rfl)
  exact ⟨rfl, rfl, eH ▸ h3, by decide⟩

/-! ## C5: group_by -/

theorem argsort_map_perm (ks : List ℚ) :
    ((RelationalOperators.argsort ks true).map fun i => ks.getD i 0).Perm ks := by
  have h := (argsort_perm ks true).map fun i => ks.getD i 0
  rwa [range_map_getD] at h

theorem argsort_map_sorted (ks : List ℚ) :
    ((RelationalOperators.argsort ks true).map fun i => ks.getD i 0).Sorted
      (· ≤ ·) := by
  have hs := argsort_sorted ks true
  rw [List.Sorted, List.pairwise_map]
  refine hs.imp ?_
  intro a b hab
  rcases (by simpa [RelationalOperators.argsortLe] using hab :
      RelationalOperators.keyAt ks a < RelationalOperators.keyAt ks b ∨
        RelationalOperators.keyAt ks a = RelationalOperators.keyAt ks b ∧ a ≤ b)
    with h | ⟨h, _⟩
  · exact le_of_lt h
  · exact le_of_eq h

theorem uc_cons_strict :
    ∀ (xs : List ℚ) (x : ℚ), (x :: xs).Sorted (· ≤ ·) →
      ∃ U', RelationalOperators.uniqueConsecutive (x :: xs) = x :: U' ∧
        ∀ u ∈ U', x < u := by
  intro xs
  induction xs with
  | nil =>
      intro x _
      exact ⟨[], rfl, by simp⟩
  | cons y t ih =>
      intro x hs
      have hst : (y :: t).Sorted (· ≤ ·) := hs.of_cons
      have hxy : x ≤ y := List.rel_of_sorted_cons hs y (List.mem_cons_self _ _)
      obtain ⟨U₂, hU₂, hlt₂⟩ := ih y hst
      by_cases hxyeq : x = y
      · refine ⟨U₂, ?_, ?_⟩
        · rw [RelationalOperators.uniqueConsecutive, if_pos hxyeq, hU₂, hxyeq]
        · intro u hu
          exact hxyeq ▸ (hlt₂ u hu)
      · refine ⟨y :: U₂, ?_, ?_⟩
        · rw [RelationalOperators.uniqueConsecutive, if_neg hxyeq, hU₂]
        · intro u hu
          have hxy' : x < y := lt_of_le_of_ne hxy hxyeq
          rcases List.mem_cons.mp hu with rfl | hu'
          · exact hxy'
          · exact hxy'.trans (hlt₂ u hu')

theorem uc_eq_dedup : ∀ s : List ℚ, s.Sorted (· ≤ ·) →
    RelationalOperators.uniqueConsecutive s = s.dedup := by
  intro s
  induction s using RelationalOperators.uniqueConsecutive.induct with
  | case1 => intro _; rfl
  | case2 a => intro _; rfl
  | case3 b rest ih =>
      intro hs
      have hst : (b :: rest).Sorted (· ≤ ·) := hs.of_cons
      rw [RelationalOperators.uniqueConsecutive, if_pos rfl, ih hst,
        List.dedup_cons_of_mem (List.mem_cons_self _ _)]
  | case4 a b rest hab ih =>
      intro hs
      have hst : (b :: rest).Sorted (· ≤ ·) := hs.of_cons
      have hab' : a < b :=
        lt_of_le_of_ne (List.rel_of_sorted_cons hs b (List.mem_cons_self _ _)) hab
      have hnotmem : a ∉ b :: rest := by
        intro hmem
        rcases List.mem_cons.mp hmem with rfl | hmem'
        · exact hab rfl
        · exact absurd (hab'.trans_le (List.rel_of_sorted_cons hst a hmem'))
            (lt_irrefl a)
      rw [RelationalOperators.uniqueConsecutive, if_neg hab, ih hst,
        List.dedup_cons_of_not_mem hnotmem]

theorem inverseIdx_cons (x : ℚ) (xs : List ℚ) :
    ∃ r, RelationalOperators.inverseIdx (x :: xs) = 0 :: r := by
  cases xs with
  | nil => exact ⟨[], rfl⟩
  | cons y t =>
      rw [RelationalOperators.inverseIdx]
      by_cases h : x = y
      · rw [if_pos h]; exact ⟨_, rfl⟩
      · rw [if_neg h]; exact ⟨_, rfl⟩

theorem bincount_cons_eq (x : ℕ) (t : List ℕ) :
    RelationalOperators.bincount (x :: t) =
      (List.range ((x :: t).foldr Nat.max 0 + 1)).map fun g =>
        (x :: t).count g := rfl

theorem bincount_cons_zero (r : List ℕ) :
    RelationalOperators.bincount (0 :: r) =
      (0 :: r).count 0 ::
        (List.range ((0 :: r).foldr Nat.max 0)).map fun g =>
          (0 :: r).count (g + 1) := by
  rw [bincount_cons_eq, List.range_succ_eq_map, List.map_cons, List.map_map]
  rfl

theorem bincount_cons_zero_zero (r : List ℕ) :
    RelationalOperators.bincount (0 :: 0 :: r) =
      ((0 :: r).count 0 + 1) ::
        (List.range ((0 :: r).foldr Nat.max 0)).map fun g =>
          (0 :: r).count (g + 1) := by
  rw [bincount_cons_zero]
  have hf : (0 :: 0 :: r).foldr Nat.max 0 = (0 :: r).foldr Nat.max 0 := by
    simp [List.foldr_cons]
  rw [hf]
  refine congrArg₂ (· :: ·) ?_ ?_
  · simp [List.count_cons]
  · refine List.map_congr_left ?_
    intro g _
    simp [List.count_cons]

theorem foldr_max_map_succ :
    ∀ l : List ℕ, l ≠ [] →
      (l.map (· + 1)).foldr Nat.max 0 = l.foldr Nat.max 0 + 1 := by
  intro l
  induction l with
  | nil => intro h; exact absurd rfl h
  | cons x t ih =>
      intro _
      cases t with
      | nil => simp
      | cons y s =>
          simp only [List.map_cons, List.foldr_cons] at *
          rw [ih (List.cons_ne_nil y s)]
          exact max_add_add_right x ((y :: s).foldr Nat.max 0) 1

theorem bincount_shift (l : List ℕ) :
    RelationalOperators.bincount (0 :: l.map (· + 1)) =
      1 :: RelationalOperators.bincount l := by
  cases l with
  | nil => rfl
  | cons x t =>
      rw [bincount_cons_zero]
      have hf : (0 :: (x :: t).map (· + 1)).foldr Nat.max 0 =
          (x :: t).foldr Nat.max 0 + 1 := by
        rw [List.foldr_cons, foldr_max_map_succ (x :: t) (List.cons_ne_nil x t)]
        exact Nat.zero_max _
      rw [hf, bincount_cons_eq]
      refine congrArg₂ (· :: ·) ?_ ?_
      · simp [List.count_cons, List.count_eq_zero, List.mem_map]
      · refine List.map_congr_left ?_
        intro g _
        have h1 : (0 :: (x :: t).map (· + 1)).count (g + 1) =
            ((x :: t).map (· + 1)).count (g + 1) := by
          simp [List.count_cons]
        rw [h1]
        exact List.count_map_of_injective (x :: t) (· + 1)
          (add_left_injective 1) g

theorem bincount_inverseIdx : ∀ s : List ℚ, s.Sorted (· ≤ ·) →
    RelationalOperators.bincount (RelationalOperators.inverseIdx s) =
      (RelationalOperators.uniqueConsecutive s).map fun u => s.count u := by
  intro s
  induction s using RelationalOperators.inverseIdx.induct with
  | case1 => intro _; rfl
  | case2 a =>
      intro _
      have hL : RelationalOperators.bincount
          (RelationalOperators.inverseIdx [a]) = [1] := rfl
      rw [hL]
      simp [RelationalOperators.uniqueConsecutive, List.count_cons]
  | case3 b rest ih =>
      intro hs
      have hst : (b :: rest).Sorted (· ≤ ·) := hs.of_cons
      have ih' := ih hst
      obtain ⟨r, hr⟩ := inverseIdx_cons b rest
      obtain ⟨U, hU, hlt⟩ := uc_cons_strict rest b hst
      rw [hr, hU, bincount_cons_zero, List.map_cons] at ih'
      injection ih' with h1 h2
      have hiv : RelationalOperators.inverseIdx (b :: b :: rest) =
          0 :: 0 :: r := by
        rw [RelationalOperators.inverseIdx, if_pos rfl, hr]
      rw [hiv, bincount_cons_zero_zero,
        RelationalOperators.uniqueConsecutive, if_pos rfl, hU, List.map_cons]
      refine congrArg₂ (· :: ·) ?_ ?_
      · rw [h1]; simp [List.count_cons]
      · rw [h2]
        refine List.map_congr_left ?_
        intro u hu
        have hub : u ≠ b := ne_of_gt (hlt u hu)
        simp [List.count_cons, hub]
  | case4 a b rest hab ih =>
      intro hs
      have hst : (b :: rest).Sorted (· ≤ ·) := hs.of_cons
      have ih' := ih hst
      have hab' : a < b :=
        lt_of_le_of_ne (List.rel_of_sorted_cons hs b (List.mem_cons_self _ _)) hab
      have hiv : RelationalOperators.inverseIdx (a :: b :: rest) =
          0 :: (RelationalOperators.inverseIdx (b :: rest)).map (· + 1) := by
        rw [RelationalOperators.inverseIdx, if_neg hab]
      obtain ⟨U, hU, hlt⟩ := uc_cons_strict rest b hst
      rw [hiv, bincount_shift, ih',
        RelationalOperators.uniqueConsecutive, if_neg hab, List.map_cons]
      have hnm : a ∉ b :: rest := by
        intro hmem
        rcases List.mem_cons.mp hmem with rfl | hmem'
        · exact hab rfl
        · exact absurd (hab'.trans_le (List.rel_of_sorted_cons hst a hmem'))
            (lt_irrefl a)
      refine congrArg₂ (· :: ·) ?_ ?_
      · simp [List.count_cons, List.count_eq_zero_of_not_mem hnm]
      · refine List.map_congr_left ?_
        intro u hu
        have hua : u ≠ a := by
          rw [hU] at hu
          rcases List.mem_cons.mp hu with rfl | hu'
          · exact hab'.ne'
          · exact (hab'.trans (hlt u hu')).ne'
        simp [List.count_cons, hua]

theorem group_by_single (table : TensorTable) (g0 agg_col af : String)
    (gvals : List ℚ) (aggT : Tensor) (tag0 : String)
    (hg : table.get_column g0 = some (Tensor.num gvals))
    (ha : table.get_column agg_col = some aggT)
    (htag : dget table.schema g0 = some tag0) :
    RelationalOperators.group_by table [g0] agg_col af =
      (RelationalOperators.computeAgg af
        (aggT.gather (RelationalOperators.argsort gvals true))
        (RelationalOperators.inverseIdx
          ((RelationalOperators.argsort gvals true).map fun i =>
            gvals.getD i 0))
        (RelationalOperators.uniqueConsecutive
          ((RelationalOperators.argsort gvals true).map fun i =>
            gvals.getD i 0)).length).map fun agg =>
        ⟨dictInsert
           (dictInsert [] g0 (Tensor.num (RelationalOperators.uniqueConsecutive
             ((RelationalOperators.argsort gvals true).map fun i =>
               gvals.getD i 0))))
           (af ++ "_" ++ agg_col) (Tensor.num agg),
         dictInsert (dictInsert [] g0 tag0)
           (af ++ "_" ++ agg_col) "numeric"⟩ := by
  cases hC : RelationalOperators.computeAgg af
      (aggT.gather (RelationalOperators.argsort gvals true))
      (RelationalOperators.inverseIdx
        ((RelationalOperators.argsort gvals true).map fun i => gvals.getD i 0))
      (RelationalOperators.uniqueConsecutive
        ((RelationalOperators.argsort gvals true).map fun i =>
          gvals.getD i 0)).length with
  | error e =>
      simp only [RelationalOperators.group_by, hg, ha, htag, hC, Except.map]
  | ok agg =>
      simp only [RelationalOperators.group_by, hg, ha, htag, hC, Except.map]

/-- **C5**: for a single group column `g0` (with numeric group and aggregate
columns, a schema entry for `g0`, and no name collision between `g0` and
`<agg_func>_<agg_col>`), `group_by` returns a table with exactly the two
columns `g0` and `<agg_func>_<agg_col>` (column and schema dicts alike);
the `g0` column holds the distinct group values (the sorted key list
deduplicated) and the row count equals the number of distinct values of the
group column; for `agg_func = "count"` the aggregate column holds each
group's cardinality; for `agg_func = "avg"` it holds the elementwise
quotient of the per-group segmented sums by the per-group cardinalities;
and any aggregate function outside `{sum, count, avg, min, max}` yields the
`Unsupported aggregation function` `ValueError`. -/
theorem C5_group_by_single_column (table : TensorTable)
    (g0 agg_col af : String) (gvals avals : List ℚ) (tag0 : String)
    (hg : table.get_column g0 = some (Tensor.num gvals))
    (ha : table.get_column agg_col = some (Tensor.num avals))
    (htag : dget table.schema g0 = some tag0)
    (hne : g0 ≠ af ++ "_" ++ agg_col) :
    (∀ t', RelationalOperators.group_by table [g0] agg_col af =
        Except.ok t' →
      t'.columns.map Prod.fst = [g0, af ++ "_" ++ agg_col] ∧
      t'.schema.map Prod.fst = [g0, af ++ "_" ++ agg_col] ∧
      dget t'.columns g0 = some (Tensor.num
        (((RelationalOperators.argsort gvals true).map fun i =>
          gvals.getD i 0).dedup)) ∧
      t'.num_rows = gvals.dedup.length) ∧
    (af = "count" → ∃ t',
      RelationalOperators.group_by table [g0] agg_col af = Except.ok t' ∧
      dget t'.columns (af ++ "_" ++ agg_col) = some (Tensor.num
        ((((RelationalOperators.argsort gvals true).map fun i =>
          gvals.getD i 0).dedup).map fun u => (gvals.count u : ℚ)))) ∧
    (af = "avg" → ∃ t',
      RelationalOperators.group_by table [g0] agg_col af = Except.ok t' ∧
      dget t'.columns (af ++ "_" ++ agg_col) = some (Tensor.num
        (List.zipWith (· / ·)
          (RelationalOperators.segSum
            (RelationalOperators.inverseIdx
              ((RelationalOperators.argsort gvals true).map fun i =>
                gvals.getD i 0))
            ((RelationalOperators.argsort gvals true).map fun i =>
              avals.getD i 0)
            (((RelationalOperators.argsort gvals true).map fun i =>
              gvals.getD i 0).dedup).length)
          ((((RelationalOperators.argsort gvals true).map fun i =>
            gvals.getD i 0).dedup).map fun u => (gvals.count u : ℚ))))) ∧
    (af ∉ ["sum", "count", "avg", "min", "max"] →
      RelationalOperators.group_by table [g0] agg_col af =
        Except.error (PyErr.valueError
          ("Unsupported aggregation function: " ++ af))) := by
  have hgb := group_by_single table g0 agg_col af gvals (Tensor.num avals)
    tag0 hg ha htag
  set S := (RelationalOperators.argsort gvals true).map fun i =>
    gvals.getD i 0 with hSdef
  have hsor : S.Sorted (· ≤ ·) := argsort_map_sorted gvals
  have hperm : S.Perm gvals := argsort_map_perm gvals
  have hucd : RelationalOperators.uniqueConsecutive S = S.dedup :=
    uc_eq_dedup S hsor
  have hbc : RelationalOperators.bincount (RelationalOperators.inverseIdx S) =
      (RelationalOperators.uniqueConsecutive S).map fun u => S.count u :=
    bincount_inverseIdx S hsor
  have hcnt : ∀ u, S.count u = gvals.count u := fun u => hperm.count_eq u
  have hdl : S.dedup.length = gvals.dedup.length := hperm.dedup.length_eq
  have hagg : ((RelationalOperators.bincount
      (RelationalOperators.inverseIdx S)).map fun c : ℕ => (c : ℚ)) =
      S.dedup.map fun u => (gvals.count u : ℚ) := by
    rw [hbc, hucd, List.map_map]
    exact List.map_congr_left fun u _ => by simp [Function.comp, hcnt u]
  refine ⟨?_, ?_, ?_, ?_⟩
  · intro t' ht'
    rw [hgb] at ht'
    cases hC : RelationalOperators.computeAgg af
        ((Tensor.num avals).gather (RelationalOperators.argsort gvals true))
        (RelationalOperators.inverseIdx S)
        (RelationalOperators.uniqueConsecutive S).length with
    | error e =>
        rw [hC] at ht'
        exact absurd ht' (by simp [Except.map])
    | ok agg =>
        rw [hC] at ht'
        simp only [Except.map, Except.ok.injEq] at ht'
        subst ht'
        refine ⟨?_, ?_, ?_, ?_⟩
        · simp [dictInsert, hne]
        · simp [dictInsert, hne]
        · simp [dictInsert, dget, hne, hucd]
        · simp [dictInsert, hne, TensorTable.num_rows, Tensor.len, hucd, hdl]
  · intro haf
    subst haf
    have hC : RelationalOperators.computeAgg "count"
        ((Tensor.num avals).gather (RelationalOperators.argsort gvals true))
        (RelationalOperators.inverseIdx S)
        (RelationalOperators.uniqueConsecutive S).length =
        Except.ok ((RelationalOperators.bincount
          (RelationalOperators.inverseIdx S)).map fun c : ℕ => (c : ℚ)) := by
      simp [RelationalOperators.computeAgg]
    refine ⟨_, by rw [hgb, hC]; rfl, ?_⟩
    simp only [dictInsert, dget, hne, if_neg, if_pos]
    simp [dictInsert, dget, hne, hagg]
  · intro haf
    subst haf
    have hC : RelationalOperators.computeAgg "avg"
        ((Tensor.num avals).gather (RelationalOperators.argsort gvals true))
        (RelationalOperators.inverseIdx S)
        (RelationalOperators.uniqueConsecutive S).length =
        Except.ok (List.zipWith (· / ·)
          (RelationalOperators.segSum (RelationalOperators.inverseIdx S)
            ((RelationalOperators.argsort gvals true).map fun i =>
              avals.getD i 0)
            (RelationalOperators.uniqueConsecutive S).length)
          ((RelationalOperators.bincount
            (RelationalOperators.inverseIdx S)).map fun c : ℕ => (c : ℚ))) := by
      simp [RelationalOperators.computeAgg, Tensor.gather]
    refine ⟨_, by rw [hgb, hC]; rfl, ?_⟩
    have hne' : g0 ≠ "avg_" ++ agg_col := by simpa using hne
    simp [dictInsert, dget, hne', hagg, hucd]
  · intro haf
    simp only [List.mem_cons, List.mem_singleton, not_or] at haf
    obtain ⟨h1, h2, h3, h4, h5⟩ := haf
    have hC : RelationalOperators.computeAgg af
        ((Tensor.num avals).gather (RelationalOperators.argsort gvals true))
        (RelationalOperators.inverseIdx S)
        (RelationalOperators.uniqueConsecutive S).length =
        Except.error (PyErr.valueError
          ("Unsupported aggregation function: " ++ af)) := by
      simp [RelationalOperators.computeAgg, h1, h2, h3, h4, h5]
    rw [hgb, hC]
    rfl

theorem group_by_multi (table : TensorTable) (g0 agg_col af : String)
    (g1 : String) (gs : List String) (g0vals gk : List ℚ) (aggT : Tensor)
    (tag0 : String)
    (hg : table.get_column g0 = some (Tensor.num g0vals))
    (hcomb : RelationalOperators.combineGroup table (g1 :: gs)
      (Tensor.num g0vals) = Except.ok (Tensor.num gk))
    (ha : table.get_column agg_col = some aggT)
    (htag : dget table.schema g0 = some tag0) :
    RelationalOperators.group_by table (g0 :: g1 :: gs) agg_col af =
      (RelationalOperators.computeAgg af
        (aggT.gather (RelationalOperators.argsort gk true))
        (RelationalOperators.inverseIdx
          ((RelationalOperators.argsort gk true).map fun i => gk.getD i 0))
        (RelationalOperators.uniqueConsecutive
          ((RelationalOperators.argsort gk true).map fun i =>
            gk.getD i 0)).length).map fun agg =>
        ⟨dictInsert
           (dictInsert [] g0 (Tensor.num (RelationalOperators.uniqueConsecutive
             ((RelationalOperators.argsort gk true).map fun i =>
               gk.getD i 0))))
           (af ++ "_" ++ agg_col) (Tensor.num agg),
         dictInsert (dictInsert [] g0 tag0)
           (af ++ "_" ++ agg_col) "numeric"⟩ := by
  cases hC : RelationalOperators.computeAgg af
      (aggT.gather (RelationalOperators.argsort gk true))
      (RelationalOperators.inverseIdx
        ((RelationalOperators.argsort gk true).map fun i => gk.getD i 0))
      (RelationalOperators.uniqueConsecutive
        ((RelationalOperators.argsort gk true).map fun i =>
          gk.getD i 0)).length with
  | error e =>
      simp only [RelationalOperators.group_by, hg, hcomb, ha, htag, hC,
        Except.map]
  | ok agg =>
      simp only [RelationalOperators.group_by, hg, hcomb, ha, htag, hC,
        Except.map]

/-- **C5 counterexample**: two clauses of the claim fail on concrete inputs.
With two group columns (`["dept", "age"]` over rows where `dept` has 2
distinct values but the composite `(dept, age)` key has 3), the result has
3 rows, not the number of distinct values of `group_cols[0]`.  And when the
first group column is itself named `<agg_fn>_<agg_col>` (here `count_age`),
the two dict insertions collide and the result has a single column, not
two. -/
theorem C5_group_by_counterexample :
    (∃ t', RelationalOperators.group_by
        ⟨[("dept", Tensor.num [1, 1, 2]), ("age", Tensor.num [30, 40, 50])],
         [("dept", "numeric"), ("age", "numeric")]⟩
        ["dept", "age"] "age" "count" = Except.ok t' ∧
      t'.num_rows = 3 ∧ ([1, 1, 2] : List ℚ).dedup.length = 2) ∧
    (∃ t', RelationalOperators.group_by
        ⟨[("count_age", Tensor.num [1, 1]), ("age", Tensor.num [3, 4])],
         [("count_age", "numeric"), ("age", "numeric")]⟩
        ["count_age"] "age" "count" = Except.ok t' ∧
      t'.columns.map Prod.fst = ["count_age"]) := by
  constructor
  · have hcomb : RelationalOperators.combineGroup
        ⟨[("dept", Tensor.num [1, 1, 2]), ("age", Tensor.num [30, 40, 50])],
         [("dept", "numeric"), ("age", "numeric")]⟩ ["age"]
        (Tensor.num [1, 1, 2]) =
        Except.ok (Tensor.num [10030, 10040, 20050]) := by
      simp only [RelationalOperators.combineGroup, TensorTable.get_column,
        dget]
      rw [if_neg (by decide : ¬("dept" : String) = "age")]
      norm_num [RelationalOperators.combineGroup, List.zipWith]
    have h1 := group_by_multi
      ⟨[("dept", Tensor.num [1, 1, 2]), ("age", Tensor.num [30, 40, 50])],
       [("dept", "numeric"), ("age", "numeric")]⟩
      "dept" "age" "count" "age" [] [1, 1, 2] [10030, 10040, 20050]
      (Tensor.num [30, 40, 50]) "numeric" rfl hcomb rfl rfl
    have h2 : (RelationalOperators.computeAgg "count"
        ((Tensor.num [30, 40, 50]).gather
          (RelationalOperators.argsort [10030, 10040, 20050] true))
        (RelationalOperators.inverseIdx
          ((RelationalOperators.argsort [10030, 10040, 20050] true).map
            fun i => ([10030, 10040, 20050] : List ℚ).getD i 0))
        (RelationalOperators.uniqueConsecutive
          ((RelationalOperators.argsort [10030, 10040, 20050] true).map
            fun i =>
              ([10030, 10040, 20050] : List ℚ).getD i 0)).length).map
        (fun agg =>
          (⟨dictInsert
             (dictInsert [] "dept"
               (Tensor.num (RelationalOperators.uniqueConsecutive
                 ((RelationalOperators.argsort [10030, 10040, 20050]
                   true).map fun i =>
                     ([10030, 10040, 20050] : List ℚ).getD i 0))))
             ("count" ++ "_" ++ "age") (Tensor.num agg),
           dictInsert (dictInsert [] "dept" "numeric")
             ("count" ++ "_" ++ "age") "numeric"⟩ : TensorTable)) =
        Except.ok
          ⟨[("dept", Tensor.num [10030, 10040, 20050]),
            ("count_age",
             Tensor.num [((1 : ℕ) : ℚ), ((1 : ℕ) : ℚ), ((1 : ℕ) : ℚ)])],
           [("dept", "numeric"), ("count_age", "numeric")]⟩ := rfl
    exact ⟨_, h1.trans h2, rfl, by decide⟩
  · have h1 := group_by_single
      ⟨[("count_age", Tensor.num [1, 1]), ("age", Tensor.num [3, 4])],
       [("count_age", "numeric"), ("age", "numeric")]⟩
      "count_age" "age" "count" [1, 1] (Tensor.num [3, 4]) "numeric"
      rfl rfl rfl
    have h2 : (RelationalOperators.computeAgg "count"
        ((Tensor.num [3, 4]).gather
          (RelationalOperators.argsort [1, 1] true))
        (RelationalOperators.inverseIdx
          ((RelationalOperators.argsort [1, 1] true).map fun i =>
            ([1, 1] : List ℚ).getD i 0))
        (RelationalOperators.uniqueConsecutive
          ((RelationalOperators.argsort [1, 1] true).map fun i =>
            ([1, 1] : List ℚ).getD i 0)).length).map
        (fun agg =>
          (⟨dictInsert
             (dictInsert [] "count_age"
               (Tensor.num (RelationalOperators.uniqueConsecutive
                 ((RelationalOperators.argsort [1, 1] true).map fun i =>
                   ([1, 1] : List ℚ).getD i 0))))
             ("count" ++ "_" ++ "age") (Tensor.num agg),
           dictInsert (dictInsert [] "count_age" "numeric")
             ("count" ++ "_" ++ "age") "numeric"⟩ : TensorTable)) =
        Except.ok
          ⟨[("count_age", Tensor.num [((2 : ℕ) : ℚ)])],
           [("count_age", "numeric")]⟩ := rfl
    exact ⟨_, h1.trans h2, rfl⟩

/-- Witness for `C5_group_by_single_column`: the hypotheses hold for the
table `{dept: [1, 1, 2], age: [30, 40, 50]}` with group column `dept`,
aggregate column `age` and aggregate function `count`, and the count
conjunct yields the per-group cardinalities. -/
theorem C5_group_by_single_column_witness :
    "dept" ≠ "count" ++ "_" ++ "age" ∧
    (∃ t', RelationalOperators.group_by
        ⟨[("dept", Tensor.num [1, 1, 2]), ("age", Tensor.num [30, 40, 50])],
         [("dept", "numeric"), ("age", "numeric")]⟩
        ["dept"] "age" "count" = Except.ok t' ∧
      dget t'.columns ("count" ++ "_" ++ "age") = some (Tensor.num
        ((((RelationalOperators.argsort [1, 1, 2] true).map fun i =>
          ([1, 1, 2] : List ℚ).getD i 0).dedup).map fun u =>
            (([1, 1, 2] : List ℚ).count u : ℚ)))) :=
  ⟨by decide,
   (C5_group_by_single_column
     ⟨[("dept", Tensor.num [1, 1, 2]), ("age", Tensor.num [30, 40, 50])],
      [("dept", "numeric"), ("age", "numeric")]⟩
     "dept" "age" "count" [1, 1, 2] [30, 40, 50] "numeric"
     rfl rfl rfl (by decide)).2.1 rfl⟩
